import Mathlib

/-!
Verification of the Worldometers demographics crawler
(`code/demographics_crawler.py`) against its natural-language
specification.

The Python source is shallowly embedded: strings are modelled as `List Char`
(so that all operations are executable and decidable), the HTTP layer is
modelled by an oracle giving the outcome of each GET attempt, the parsed
HTML documents are modelled by structures that record exactly the queries
the source performs on them (the `BeautifulSoup` parser itself is an
external dependency of the source, so its query results are taken as the
abstract input), and the Python regular expressions used by the source are
embedded as executable backtracking matchers with Python `re.search`
semantics (leftmost match; greedy and lazy quantifiers).
-/

namespace DemoCrawl

/-- Python strings are modelled as lists of characters. -/
abbrev Str := List Char

/-- `s.lower()` : lower-case every character. -/
def lowerStr (s : Str) : Str := s.map Char.toLower

/-- Python `sub in s` : substring containment test. -/
def strContainsSub (s pat : Str) : Bool := s.tails.any (fun t => pat.isPrefixOf t)

/-- Case-insensitive literal match at the start of `s`; `pat` must be given
lower-case (models a `re.IGNORECASE` literal anchored at the current point). -/
def ciHasPrefix (pat s : Str) : Bool := lowerStr (s.take pat.length) == pat

/-- The whitespace class matched by Python's `\s` (ASCII fragment). -/
def isPySpace (c : Char) : Bool :=
  c == ' ' || c == '\t' || c == '\n' || c == '\x0d' || c == '\x0c' || c == '\x0b'

-- ---------------------------------------------------------------------------
-- Configuration constants of the source
-- ---------------------------------------------------------------------------

/-- `BASE_URL = "https://www.worldometers.info"` -/
def BASE_URL : Str := "https://www.worldometers.info".data

/-- The WHATWG C0-control-or-space characters that `urlsplit` strips from
the front of a URL (CPython 3.11: leading only, trailing kept). -/
def isC0OrSpace (c : Char) : Bool := c.toNat ≤ 32

/-- The unsafe bytes (`\t`, `\r`, `\n`) that `urlsplit` removes
everywhere in a URL. -/
def isTabCrLf (c : Char) : Bool := c == '\t' || c == '\x0d' || c == '\n'

/-- `urlsplit`'s URL preprocessing (CPython 3.11.6): strip leading
C0-control/space characters, then remove every tab, CR and LF. -/
def cleanUrl (s : Str) : Str := (s.dropWhile isC0OrSpace).filter (fun c => !isTabCrLf c)

/-- Python `path.split("/")`. -/
def splitSlash : Str → List Str
  | [] => [[]]
  | c :: rest =>
    if c = '/' then [] :: splitSlash rest
    else
      match splitSlash rest with
      | seg :: more => (c :: seg) :: more
      | [] => [[c]]

/-- Python `"/".join(...)`. -/
def joinSlash : List Str → Str
  | [] => []
  | [s] => s
  | s :: rest => s ++ '/' :: joinSlash rest

/-- `urljoin`'s segment loop: `".."` pops the last resolved segment (a
no-op on an empty stack, matching the `try: pop / except IndexError`),
`"."` is skipped, every other segment — empty ones included — is
appended. -/
def resolveSegs : List Str → List Str → List Str
  | acc, [] => acc
  | acc, seg :: rest =>
    if seg = ['.'] then resolveSegs acc rest
    else if seg = ['.', '.'] then resolveSegs acc.dropLast rest
    else resolveSegs (acc ++ [seg]) rest

/-- The tail of `urljoin`'s path reassembly: `"/".join(...) or "/"`, then
`urlunsplit` re-adds the leading slash because the base has a netloc. -/
def ensureSlash (j : Str) : Str :=
  if j.isEmpty then ['/']
  else if j.head? = some '/' then j else '/' :: j

/-- Dot-segment resolution as `urljoin` applies it to an absolute path:
the segment loop, the trailing-slash special case when the final segment is
`"."` or `".."`, the `or "/"` fallback for an empty join, and
`urlunsplit`'s re-addition of the leading slash (the netloc is present). -/
def removeDotSegments (path : Str) : Str :=
  let segs := splitSlash path
  let res := resolveSegs [] segs
  let res := if segs.getLastD [] = ['.'] ∨ segs.getLastD [] = ['.', '.'] then
               res ++ [([] : Str)]
             else res
  ensureSlash (joinSlash res)

/-- Python `s.split("/")[-1]`: the suffix after the last `'/'` (the whole
string when there is no `'/'`). -/
def lastSeg (s : Str) : Str := (s.reverse.takeWhile (· != '/')).reverse

/-- `urlparse`'s `_splitparams` on a path: the params are everything after
the first `';'` within the last path segment; `urlunparse` reattaches them
with `';'` only when non-empty. -/
def splitParams (p : Str) : Str × Str :=
  let seg := lastSeg p
  let inSeg := seg.takeWhile (fun c => c ≠ ';')
  if inSeg.length = seg.length then (p, [])
  else (p.take (p.length - seg.length) ++ inSeg, seg.drop (inSeg.length + 1))

/-- The cleaned href up to the first `'#'` (`urlsplit`'s fragment split). -/
def hrefBeforeHash (rel : Str) : Str := (cleanUrl rel).takeWhile (fun c => c ≠ '#')

/-- The fragment of the cleaned href: everything after the first `'#'`. -/
def hrefFrag (rel : Str) : Str := (cleanUrl rel).drop ((hrefBeforeHash rel).length + 1)

/-- The cleaned href up to the first `'?'` or `'#'` (`urlsplit`'s query
split applied after the fragment split). -/
def hrefPath0 (rel : Str) : Str := (hrefBeforeHash rel).takeWhile (fun c => c ≠ '?')

/-- The query of the cleaned href: between the first `'?'` and the
fragment. -/
def hrefQuery (rel : Str) : Str := (hrefBeforeHash rel).drop ((hrefPath0 rel).length + 1)

/-- The path component `urljoin` resolves for a given href: the cleaned
href up to the first `'#'` or `'?'`, params stripped. -/
def hrefPath (rel : Str) : Str := (splitParams (hrefPath0 rel)).1

/-- The params of the cleaned href's path (after the first `';'` of its
last segment). -/
def hrefParams (rel : Str) : Str := (splitParams (hrefPath0 rel)).2

/-- `urljoin(base, rel)` of CPython 3.11.6, for the joins the source
performs: `base` is `BASE_URL` (scheme and netloc, empty path) and every
`rel` is an href that starts with `"/demographics/"` (each call site is
guarded by `href.startswith("/demographics/")`, or passes the literal
`"/demographics/"`), hence an absolute-path reference without scheme or
netloc.  An empty `rel` returns the base
(`if not url: return base`); on the filter-passing hrefs the scheme and
netloc branches are dead, since the cleaned href still begins with a single
`'/'` followed by `'d'` (the filter pins the first characters and the
cleaning only drops characters further right), so no scheme colon precedes
the path and no `"//"` netloc marker appears, and the resolved path is
non-empty.  `urlsplit` preprocessing cleans the URL and splits off the
fragment (first `'#'`) then the query (first `'?'`); `urlparse` splits the
params from the path's last segment; the path is dot-segment-resolved; and
`urlunparse`/`urlunsplit` reassemble, dropping empty params, query and
fragment. -/
def urljoin (base rel : Str) : Str :=
  if rel.isEmpty then base else
  base ++ removeDotSegments (hrefPath rel)
    ++ (if (hrefParams rel).isEmpty then [] else ';' :: hrefParams rel)
    ++ (if (hrefQuery rel).isEmpty then [] else '?' :: hrefQuery rel)
    ++ (if (hrefFrag rel).isEmpty then [] else '#' :: hrefFrag rel)

/-- An href is normalization-stable when dot-segment resolution leaves its
resolved path component unchanged (no `"."` or `".."` segments take
effect). -/
def urlNormStable (rel : Str) : Bool := removeDotSegments (hrefPath rel) == hrefPath rel

/-- `"/demographics/"`, the country-page path prefix tested by
`href.startswith("/demographics/")`. -/
def demoPath : Str := "/demographics/".data

/-- `START_URL = urljoin(BASE_URL, "/demographics/")` -/
def START_URL : Str := urljoin BASE_URL demoPath

/-- `MAX_RETRIES = 3` -/
def MAX_RETRIES : Nat := 3

/-- `RETRY_SLEEP = 2.0` (seconds), as a rational. -/
def RETRY_SLEEP : ℚ := 2

-- ---------------------------------------------------------------------------
-- HTTP fetcher: `request_with_retry`
-- ---------------------------------------------------------------------------

/-- Outcome of one `requests.get` call: either a response (status code and
body text), or an exception raised by the transport itself
(`requests.Timeout`, `requests.ConnectionError`, ...), which is neither a
`requests.HTTPError` nor a `RuntimeError`. -/
inductive GetResult where
  | response (status : Nat) (body : Str)
  | netError (msg : Str)
  deriving DecidableEq, Repr

/-- The exceptions that can escape one loop iteration of
`request_with_retry`: `requests.HTTPError` from `raise_for_status()`, the
`RuntimeError` raised on the Cloudflare bot-challenge signature, or a
transport error propagating through. -/
inductive FetchError where
  | httpError (status : Nat)
  | botChallenge
  | netError (msg : Str)
  deriving DecidableEq, Repr

/-- `"checking your browser" in resp.text.lower()` -/
def hasBotPhrase (body : Str) : Bool :=
  strContainsSub (lowerStr body) ("checking your browser".data)

/-- One attempt of the `try` body: `requests.get`, then
`resp.raise_for_status()` (which raises `requests.HTTPError` exactly for
status codes in `[400, 600)`), then the bot-challenge check, then return. -/
def attemptOutcome : GetResult → Except FetchError (Nat × Str)
  | .netError m => .error (.netError m)
  | .response st body =>
    if 400 ≤ st ∧ st < 600 then .error (.httpError st)
    else if hasBotPhrase body then .error .botChallenge
    else .ok (st, body)

/-- Which exceptions the `except (requests.HTTPError, RuntimeError)` clause
catches: transport errors are not caught and propagate. -/
def isCaught : FetchError → Bool
  | .netError _ => false
  | _ => true

/-- The retry loop body, for the current `attempt` number and the number of
further attempts still allowed.  The second component of the result is the
list of sleeps performed (`time.sleep(RETRY_SLEEP)` before each retry). -/
def retryAux (get : Nat → GetResult) : Nat → Nat → Except FetchError (Nat × Str) × List ℚ
  | attempt, remaining =>
    match attemptOutcome (get attempt) with
    | .ok r => (.ok r, [])
    | .error e =>
      if isCaught e then
        match remaining with
        | 0 => (.error e, [])
        | r + 1 =>
          let rest := retryAux get (attempt + 1) r
          (rest.1, RETRY_SLEEP :: rest.2)
      else (.error e, [])

/-- `request_with_retry(url)`: the `for attempt in range(1, MAX_RETRIES+1)`
loop, with the outcome of the GET call at each attempt given by the oracle
`get`.  Returns the result (response or escaped exception) together with the
trace of inter-attempt sleeps. -/
def request_with_retry (get : Nat → GetResult) : Except FetchError (Nat × Str) × List ℚ :=
  retryAux get 1 (MAX_RETRIES - 1)

-- ---------------------------------------------------------------------------
-- Country directory resolver: `extract_country_links`
-- ---------------------------------------------------------------------------

/-- An `<a href=...>` element: its `href` attribute and its
`get_text(strip=True)` text (stripping is performed by the parser layer). -/
structure Anchor where
  href : Str
  text : Str
  deriving DecidableEq, Repr

/-- The queries `extract_country_links` performs on the parsed index page:
* `sectionUl`: the anchors (with `href`) of the first `<ul>` following a
  heading matching `Demographics of Countries` (case-insensitive), when both
  the heading and the list exist;
* `divs`: every `<div>` of the page in document order, as its full text
  together with its anchors (with `href`) in document order;
* `anchors`: every anchor (with `href`) of the page in document order. -/
structure IndexDoc where
  sectionUl : Option (List Anchor)
  divs : List (Str × List Anchor)
  anchors : List Anchor
  deriving DecidableEq, Repr

/-- Resolver state: the `links` list and the `seen` set (kept as the list of
URLs in insertion order) threaded through the three strategies. -/
abbrev LinkState := List (Str × Str) × List Str

/-- `if abs_url not in seen: seen.add(abs_url); links.append((name, abs_url))` -/
def addLink (st : LinkState) (c : Str × Str) : LinkState :=
  if c.2 ∈ st.2 then st else (st.1 ++ [c], st.2 ++ [c.2])

/-- Strategy 1: anchors of the `<ul>` after the section heading whose `href`
starts with `"/demographics/"`. -/
def strat1 (doc : IndexDoc) (st : LinkState) : LinkState :=
  match doc.sectionUl with
  | none => st
  | some ancs =>
    ancs.foldl
      (fun st a =>
        if demoPath.isPrefixOf a.href then
          addLink st (a.text, urljoin BASE_URL a.href)
        else st)
      st

/-- `"/world/"`, the aggregate-page segment excluded by strategies 2 and 3. -/
def worldSeg : Str := "/world/".data

/-- Strategy 2: anchors inside any `<div>` whose text contains
`"Demographics of Countries"` (case-sensitive `in` test), with `href`
starting with `"/demographics/"` and not containing `"/world/"`. -/
def strat2 (doc : IndexDoc) (st : LinkState) : LinkState :=
  doc.divs.foldl
    (fun st dv =>
      if strContainsSub dv.1 ("Demographics of Countries".data) then
        dv.2.foldl
          (fun st a =>
            if demoPath.isPrefixOf a.href && !strContainsSub a.href worldSeg then
              addLink st (a.text, urljoin BASE_URL a.href)
            else st)
          st
      else st)
    st

/-- The character class `[a-z\-]` of the country-slug pattern. -/
def isLowerHyphen (c : Char) : Bool := ('a' ≤ c && c ≤ 'z') || c == '-'

/-- `re.search(r"/demographics/[a-z\-]+(-demographics)?/?$", href)`:
some occurrence of `"/demographics/"` is followed by a non-empty run of
`[a-z\-]` characters and an optional final `"/"`, ending the string — or
ending just before a final newline, since Python's `$` (without
`re.MULTILINE`) also matches before a trailing `'\n'`.  (The optional
`(-demographics)?` group is subsumed by `[a-z\-]+`.) -/
def countrySlugHref (href : Str) : Bool :=
  (List.range (href.length + 1)).any fun p =>
    let rest := href.drop p
    demoPath.isPrefixOf rest &&
      (let t := rest.drop demoPath.length
       let t0 := if t.getLast? == some '\n' then t.dropLast else t
       let t2 := if t0.getLast? == some '/' then t0.dropLast else t0
       !t2.isEmpty && t2.all isLowerHyphen)

/-- Python `href.strip("/")`. -/
def stripSlashes (s : Str) : Str :=
  ((s.dropWhile (· == '/')).reverse.dropWhile (· == '/')).reverse

/-- Python `str.title()` for ASCII: the first character of every maximal
alphabetic run is upper-cased, the rest lower-cased. -/
def pyTitle (s : Str) : Str :=
  (s.foldl
    (fun (acc : Str × Bool) c =>
      let c2 := if c.isAlpha then (if acc.2 then c.toLower else c.toUpper) else c
      (acc.1 ++ [c2], c.isAlpha))
    ([], false)).1

/-- `"-demographics"` -/
def dashDemo : Str := "-demographics".data

/-- Display-name derivation for an anchor with empty text: take the last URL
segment, strip a trailing `"-demographics"`, replace `'-'` by `' '`, and
title-case. -/
def slugToName (href : Str) : Str :=
  let slug0 := lastSeg (stripSlashes href)
  let slug := if dashDemo.isSuffixOf slug0 then slug0.take (slug0.length - dashDemo.length)
              else slug0
  pyTitle (slug.map fun c => if c == '-' then ' ' else c)

/-- Strategy 3: every anchor of the page whose `href` starts with
`"/demographics/"`, does not contain `"/world/"`, and matches the
country-slug pattern; an empty link text is replaced by the name derived
from the URL slug. -/
def strat3 (doc : IndexDoc) (st : LinkState) : LinkState :=
  doc.anchors.foldl
    (fun st a =>
      if demoPath.isPrefixOf a.href && !strContainsSub a.href worldSeg
          && countrySlugHref a.href then
        let name := if a.text.isEmpty then slugToName a.href else a.text
        addLink st (name, urljoin BASE_URL a.href)
      else st)
    st

/-- `extract_country_links(soup)`: the three strategies in order, each of the
later two run only when `links` is still empty. -/
def extract_country_links (doc : IndexDoc) : List (Str × Str) :=
  let st := strat1 doc ([], [])
  let st := if st.1 = [] then strat2 doc st else st
  let st := if st.1 = [] then strat3 doc st else st
  st.1

/-- The links produced by strategy 1 alone from an empty state. -/
def links1 (doc : IndexDoc) : List (Str × Str) := (strat1 doc ([], [])).1

/-- The links produced by strategy 2 alone from an empty state. -/
def links2 (doc : IndexDoc) : List (Str × Str) := (strat2 doc ([], [])).1

/-- The links produced by strategy 3 alone from an empty state. -/
def links3 (doc : IndexDoc) : List (Str × Str) := (strat3 doc ([], [])).1

-- ---------------------------------------------------------------------------
-- Python dict model (string-keyed records with insertion order)
-- ---------------------------------------------------------------------------

/-- A value stored in the record dict: a string, or `None`. -/
inductive PyVal where
  | vStr (s : Str)
  | vNone
  deriving DecidableEq, Repr

/-- The record built by `extract_country_data`, as an insertion-ordered
association list (a Python dict with string keys). -/
abbrev Dict := List (Str × PyVal)

/-- `d[k] = v` : overwrite in place, or append if the key is new. -/
def dictSet : Dict → Str → PyVal → Dict
  | [], k, v => [(k, v)]
  | (k2, v2) :: rest, k, v =>
    if k2 = k then (k2, v) :: rest else (k2, v2) :: dictSet rest k v

/-- `d.get(k)` : the value of the first (unique) entry with key `k`. -/
def dictGet? : Dict → Str → Option PyVal
  | [], _ => none
  | (k2, v2) :: rest, k => if k2 = k then some v2 else dictGet? rest k

/-- `k in d` -/
def dictHasKey (d : Dict) (k : Str) : Bool := (dictGet? d k).isSome

/-- `d.setdefault(k, v)` -/
def dictSetdefault (d : Dict) (k : Str) (v : PyVal) : Dict :=
  if dictHasKey d k then d else d ++ [(k, v)]

-- ---------------------------------------------------------------------------
-- Field keys
-- ---------------------------------------------------------------------------

/-- `"country"` -/
def keyCountry : Str := "country".data

/-- `"life_expectancy_both"` -/
def keyLeBoth : Str := "life_expectancy_both".data

/-- `"life_expectancy_female"` -/
def keyLeFemale : Str := "life_expectancy_female".data

/-- `"life_expectancy_male"` -/
def keyLeMale : Str := "life_expectancy_male".data

/-- `"urban_population_percent"` -/
def keyUpPct : Str := "urban_population_percent".data

/-- `"urban_population_absolute"` -/
def keyUpAbs : Str := "urban_population_absolute".data

/-- `"population_density_km2"` -/
def keyDensity : Str := "population_density_km2".data

/-- `NUMERIC_COLUMNS` -/
def NUMERIC_COLUMNS : List Str :=
  [keyLeBoth, keyLeFemale, keyLeMale, keyUpPct, keyUpAbs, keyDensity]

-- ---------------------------------------------------------------------------
-- Embedded regular expressions (Python `re.search` semantics)
-- ---------------------------------------------------------------------------

/-- The class `[\d.]`. -/
def isDigitDot (c : Char) : Bool := c.isDigit || c == '.'

/-- The class `[\d,]`. -/
def isDigitComma (c : Char) : Bool := c.isDigit || c == ','

/-- The class `[\d,\s]`. -/
def isDigitCommaSpace (c : Char) : Bool := c.isDigit || c == ',' || isPySpace c

/-- `\s*lit` anchored at `s`: some number of leading whitespace characters
(any split of the greedy `\s*` works, since the group before it is
unaffected) followed by the literal `lit`. -/
def spacesThenLit (lit s : Str) : Bool :=
  (List.range ((s.takeWhile isPySpace).length + 1)).any fun k =>
    lit.isPrefixOf (s.drop k)

/-- `\s*lit` anchored at `s`, with `lit` matched case-insensitively
(`lit` given lower-case). -/
def spacesThenLitCI (lit s : Str) : Bool :=
  (List.range ((s.takeWhile isPySpace).length + 1)).any fun k =>
    ciHasPrefix lit (s.drop k)

/-- `re.search(r"(\d+\.\d+)%", text)` anchored at the current position:
maximal digit run, `'.'`, maximal digit run, `'%'` (shorter runs cannot be
followed by `'.'` resp. `'%'`, so the greedy runs are forced). -/
def percentAt (s : Str) : Option Str :=
  let d1 := s.takeWhile Char.isDigit
  if d1.isEmpty then none
  else
    match s.drop d1.length with
    | '.' :: rest2 =>
      let d2 := rest2.takeWhile Char.isDigit
      if d2.isEmpty then none
      else
        match rest2.drop d2.length with
        | '%' :: _ => some (d1 ++ '.' :: d2)
        | _ => none
    | _ => none

/-- `re.search(r"(\d+\.\d+)%", text)`: leftmost match, group 1. -/
def searchPercent : Str → Option Str
  | [] => none
  | c :: rest =>
    match percentAt (c :: rest) with
    | some g => some g
    | none => searchPercent rest

/-- Backtracking over the greedy group of `\(([\d,]+)\s*people`: try group
lengths from the maximal `[\d,]` run downwards. -/
def absTry (s : Str) : Nat → Option Str
  | 0 => none
  | l + 1 =>
    if spacesThenLit ("people".data) (s.drop (l + 1)) then some (s.take (l + 1))
    else absTry s l

/-- `re.search(r"\(([\d,]+)\s*people", text)`: leftmost match, group 1. -/
def searchAbsolute : Str → Option Str
  | [] => none
  | c :: rest =>
    if c = '(' then
      match absTry rest (rest.takeWhile isDigitComma).length with
      | some g => some g
      | none => searchAbsolute rest
    else searchAbsolute rest

/-- `"currently"`, the leading literal of the urban fallback pattern. -/
def currentlyLit : Str := "currently".data

/-- Group 2 of the urban fallback pattern: greedy `([\d,\s]+)` then `\s*`
then `people` (case-insensitive); group lengths tried longest first. -/
def urbPart5Try (s : Str) : Nat → Option Str
  | 0 => none
  | l + 1 =>
    if spacesThenLitCI ("people".data) (s.drop (l + 1)) then some (s.take (l + 1))
    else urbPart5Try s l

/-- Entry point for group 2 of the urban fallback pattern. -/
def urbPart5 (s : Str) : Option Str :=
  urbPart5Try s (s.takeWhile isDigitCommaSpace).length

/-- `[^\n]*?\(` (lazy) then group 2: try the `'('` at the current position
first, then consume one non-newline character and continue. -/
def urbPart4 : Str → Option Str
  | [] => none
  | c :: rest =>
    match (if c = '(' then urbPart5 rest else none) with
    | some g => some g
    | none => if c = '\n' then none else urbPart4 rest

/-- Greedy group 1 `([\d.]+)` then `'%'` then the rest of the pattern;
group lengths tried longest first, backtracking into part 4. -/
def urbPart3Try (s : Str) : Nat → Option (Str × Str)
  | 0 => none
  | l + 1 =>
    match s.drop (l + 1) with
    | '%' :: rest =>
      match urbPart4 rest with
      | some g2 => some (s.take (l + 1), g2)
      | none => urbPart3Try s l
    | _ => urbPart3Try s l

/-- Entry point for group 1 of the urban fallback pattern. -/
def urbPart3 (s : Str) : Option (Str × Str) :=
  urbPart3Try s (s.takeWhile isDigitDot).length

/-- `[^\n]*?` (lazy) before group 1: try group 1 here first, else consume one
non-newline character and continue. -/
def urbPart2 : Str → Option (Str × Str)
  | [] => none
  | c :: rest =>
    match urbPart3 (c :: rest) with
    | some r => some r
    | none => if c = '\n' then none else urbPart2 rest

/-- The urban fallback pattern
`Currently[^\n]*?([\d.]+)%[^\n]*?\(([\d,\s]+)\s*people` (IGNORECASE)
anchored at the current position. -/
def urbAnchored (s : Str) : Option (Str × Str) :=
  if ciHasPrefix currentlyLit s then urbPart2 (s.drop currentlyLit.length) else none

/-- `re.search` of the urban fallback pattern: leftmost match,
groups (percent, count). -/
def urbSearch : Str → Option (Str × Str)
  | [] => none
  | c :: rest =>
    match urbAnchored (c :: rest) with
    | some r => some r
    | none => urbSearch rest

/-- `"people per km"` -/
def pplPerKm : Str := "people per km".data

/-- Continuation of the density pattern after its group, `\s*people per km`:
only the maximal `\s*` split can precede the literal. -/
def densTail (s : Str) : Bool := spacesThenLit pplPerKm s

/-- `\d*` of the density group with a preceding `'.'`: digit-run lengths
tried longest first, down to zero. -/
def densD2Dot (rest2 g1 : Str) : Nat → Option Str
  | 0 => if densTail rest2 then some (g1 ++ ['.']) else none
  | l + 1 =>
    if densTail (rest2.drop (l + 1)) then some (g1 ++ '.' :: rest2.take (l + 1))
    else densD2Dot rest2 g1 l

/-- `\d*` of the density group without a dot. -/
def densD2NoDot (rest1 g1 : Str) : Nat → Option Str
  | 0 => if densTail rest1 then some g1 else none
  | l + 1 =>
    if densTail (rest1.drop (l + 1)) then some (g1 ++ rest1.take (l + 1))
    else densD2NoDot rest1 g1 l

/-- After a choice of the `\d+` run: greedy `\.?` (dot first when present,
then without), then `\d*`. -/
def densAfterD1 (rest1 g1 : Str) : Option Str :=
  match rest1 with
  | '.' :: rest2 =>
    match densD2Dot rest2 g1 (rest2.takeWhile Char.isDigit).length with
    | some g => some g
    | none => if densTail rest1 then some g1 else none
  | _ => densD2NoDot rest1 g1 (rest1.takeWhile Char.isDigit).length

/-- Greedy `\d+` of the density group: run lengths tried longest first. -/
def densD1Try (s : Str) : Nat → Option Str
  | 0 => none
  | l + 1 =>
    match densAfterD1 (s.drop (l + 1)) (s.take (l + 1)) with
    | some g => some g
    | none => densD1Try s l

/-- `re.search(r"(\d+\.?\d*)\s*people per km", text)` anchored at the
current position. -/
def densAnchored (s : Str) : Option Str :=
  densD1Try s (s.takeWhile Char.isDigit).length

/-- `re.search(r"(\d+\.?\d*)\s*people per km", text)`: leftmost match. -/
def searchDensity : Str → Option Str
  | [] => none
  | c :: rest =>
    match densAnchored (c :: rest) with
    | some g => some g
    | none => searchDensity rest

/-- `"population density"`, the leading literal of the density fallback. -/
def popDensityLit : Str := "population density".data

/-- Group of the density fallback after `is\s*`: greedy `([\d.]+)` then
`\s*people per km` (case-insensitive); lengths tried longest first. -/
def densFbTry (rest : Str) : Nat → Option Str
  | 0 => none
  | l + 1 =>
    if spacesThenLitCI pplPerKm (rest.drop (l + 1)) then some (rest.take (l + 1))
    else densFbTry rest l

/-- `is\s*([\d.]+)\s*people per km` (case-insensitive) anchored at the
current position.  Since `\s` and `[\d.]` are disjoint, only the maximal
`\s*` run can precede the group, so no backtracking over `\s*` is needed. -/
def densFbAfterLazy (s : Str) : Option Str :=
  if ciHasPrefix ("is".data) s then
    let rest0 := s.drop 2
    let rest := rest0.drop (rest0.takeWhile isPySpace).length
    densFbTry rest (rest.takeWhile isDigitDot).length
  else none

/-- `[^\n]*?` (lazy) before the `is` of the density fallback. -/
def densFbLazy : Str → Option Str
  | [] => none
  | c :: rest =>
    match densFbAfterLazy (c :: rest) with
    | some g => some g
    | none => if c = '\n' then none else densFbLazy rest

/-- The density fallback pattern
`population density[^\n]*?is\s*([\d.]+)\s*people per km` (IGNORECASE)
anchored at the current position. -/
def densFbAnchored (s : Str) : Option Str :=
  if ciHasPrefix popDensityLit s then densFbLazy (s.drop popDensityLit.length) else none

/-- `re.search` of the density fallback pattern: leftmost match, group 1. -/
def searchDensityFb : Str → Option Str
  | [] => none
  | c :: rest =>
    match densFbAnchored (c :: rest) with
    | some g => some g
    | none => searchDensityFb rest

-- ---------------------------------------------------------------------------
-- Field extractor: `extract_country_data`
-- ---------------------------------------------------------------------------

/-- The queries `extract_country_data` performs on a parsed country page:
* `leBlocks`: for each `<div class="p-4">` block in document order, the text
  of its preceding `div.text-xl` label (if any) and the text of its inner
  `div.text-2xl` value (if any);
* `urban`: `none` when no `Urban Population` heading (by id `urb` or text)
  exists, `some none` when the heading has no following `<p>`, and
  `some (some t)` when the following paragraph has text `t`;
* `density`: likewise for the `Population Density` heading;
* `pageText`: `soup.get_text("\n")`, the full page text. -/
structure CountryPage where
  leBlocks : List (Option Str × Option Str)
  urban : Option (Option Str)
  density : Option (Option Str)
  pageText : Str
  deriving DecidableEq, Repr

/-- Python `s.replace(",", "")`. -/
def removeCommas (s : Str) : Str := s.filter (fun c => c ≠ ',')

/-- Python `re.sub(r"[\s,]", "", s)`. -/
def stripSpaceComma (s : Str) : Str := s.filter (fun c => !(isPySpace c || c == ','))

/-- One life-expectancy block: classify the lower-cased label by the first
matching substring among `both sexes`, `females`, `males`, and store the
comma-stripped value under the corresponding key. -/
def leBlockStep (r : Dict) (blk : Option Str × Option Str) : Dict :=
  match blk with
  | (some lab, some v) =>
    let label := lowerStr lab
    let value := removeCommas v
    if strContainsSub label ("both sexes".data) then dictSet r keyLeBoth (.vStr value)
    else if strContainsSub label ("females".data) then dictSet r keyLeFemale (.vStr value)
    else if strContainsSub label ("males".data) then dictSet r keyLeMale (.vStr value)
    else r
  | _ => r

/-- The structured urban-population strategy: when the heading and its
paragraph exist, extract the percentage and the comma-stripped absolute
count from the paragraph text. -/
def urbanStructured (r : Dict) (urb : Option (Option Str)) : Dict :=
  match urb with
  | some (some txt) =>
    let r1 :=
      match searchPercent txt with
      | some g => dictSet r keyUpPct (.vStr g)
      | none => r
    match searchAbsolute txt with
    | some g => dictSet r1 keyUpAbs (.vStr (removeCommas g))
    | none => r1
  | _ => r

/-- The structured density strategy. -/
def densityStructured (r : Dict) (den : Option (Option Str)) : Dict :=
  match den with
  | some (some txt) =>
    match searchDensity txt with
    | some g => dictSet r keyDensity (.vStr g)
    | none => r
  | _ => r

/-- The urban fallback step: when the percent or the absolute value is still
missing, run the full-page-text regex and, on a match, set both values from
its two groups (whitespace and commas stripped from the count). -/
def urbanFallback (r : Dict) (pageText : Str) : Dict :=
  if !dictHasKey r keyUpPct || !dictHasKey r keyUpAbs then
    match urbSearch pageText with
    | some (g1, g2) =>
      dictSet (dictSet r keyUpPct (.vStr g1)) keyUpAbs (.vStr (stripSpaceComma g2))
    | none => r
  else r

/-- The density fallback step: when the density is still missing, run the
full-page-text regex. -/
def densityFallback (r : Dict) (pageText : Str) : Dict :=
  if !dictHasKey r keyDensity then
    match searchDensityFb pageText with
    | some g => dictSet r keyDensity (.vStr g)
    | none => r
  else r

/-- `extract_country_data` before the final `setdefault` loop: the record
starts with the country name, then the life-expectancy blocks, the
structured urban strategy, the urban fallback, the structured density
strategy and the density fallback are applied in source order. -/
def extractPre (name : Str) (page : CountryPage) : Dict :=
  densityFallback
    (densityStructured
      (urbanFallback
        (urbanStructured
          (page.leBlocks.foldl leBlockStep [(keyCountry, .vStr name)])
          page.urban)
        page.pageText)
      page.density)
    page.pageText

/-- `extract_country_data(name, url)` with the fetched page given: the
per-field strategy chains followed by `record.setdefault(key, None)` for
every numeric column. -/
def extract_country_data (name : Str) (page : CountryPage) : Dict :=
  NUMERIC_COLUMNS.foldl (fun r k => dictSetdefault r k .vNone) (extractPre name page)

-- ---------------------------------------------------------------------------
-- Numeric normalization: `convert_numeric_fields`
-- ---------------------------------------------------------------------------

/-- The `for i, (country_name, country_url) in enumerate(countries)` loop of
`main`: `fetch i` is the outcome of fetching and parsing country `i`'s page
(`none` models any exception raised while processing that country, caught by
the `except` clause, which skips the country and continues). -/
def crawlAux (fetch : Nat → Option CountryPage) : Nat → List (Str × Str) → List Dict
  | _, [] => []
  | i, c :: rest =>
    match fetch i with
    | some page => extract_country_data c.1 page :: crawlAux fetch (i + 1) rest
    | none => crawlAux fetch (i + 1) rest

/-- The record list assembled by `main` over a resolved country list. -/
def crawl_records (fetch : Nat → Option CountryPage) (countries : List (Str × Str)) : List Dict :=
  crawlAux fetch 0 countries

-- ---------------------------------------------------------------------------
-- Declarative companions used to state the resolver invariants
-- ---------------------------------------------------------------------------

/-- Deduplication by URL keeping the first occurrence, in input order, with
an initial set of already-seen URLs. -/
def firstSeenBy : List (Str × Str) → List Str → List (Str × Str)
  | [], _ => []
  | c :: rest, seen =>
    if c.2 ∈ seen then firstSeenBy rest seen
    else c :: firstSeenBy rest (seen ++ [c.2])

/-- The candidate links of strategy 1 in document order, before
deduplication. -/
def cands1 (doc : IndexDoc) : List (Str × Str) :=
  match doc.sectionUl with
  | none => []
  | some ancs =>
    ancs.filterMap fun a =>
      if demoPath.isPrefixOf a.href then some (a.text, urljoin BASE_URL a.href) else none

/-- The candidate links of strategy 2 in document order, before
deduplication. -/
def cands2 (doc : IndexDoc) : List (Str × Str) :=
  (doc.divs.map fun dv =>
    if strContainsSub dv.1 ("Demographics of Countries".data) then
      dv.2.filterMap fun a =>
        if demoPath.isPrefixOf a.href && !strContainsSub a.href worldSeg then
          some (a.text, urljoin BASE_URL a.href)
        else none
    else []).flatten

/-- The candidate link strategy 3 derives from one anchor, when the anchor
passes its filters. -/
def cand3fn (a : Anchor) : Option (Str × Str) :=
  if demoPath.isPrefixOf a.href && !strContainsSub a.href worldSeg
      && countrySlugHref a.href then
    some ((if a.text.isEmpty then slugToName a.href else a.text), urljoin BASE_URL a.href)
  else none

/-- The candidate links of strategy 3 in document order, before
deduplication. -/
def cands3 (doc : IndexDoc) : List (Str × Str) :=
  doc.anchors.filterMap cand3fn

/-- All anchors the resolver can draw candidates from, in their three
collections: the section list, the divs, and the whole document. -/
def docAnchors (doc : IndexDoc) : List Anchor :=
  doc.sectionUl.getD [] ++ (doc.divs.map Prod.snd).flatten ++ doc.anchors

-- ---------------------------------------------------------------------------
-- Formal statements of the claims that turn out to fail on the code
-- ---------------------------------------------------------------------------

/-- Claim C3 as stated: resolver links are URL-deduplicated, every URL
starts with the full country-page path prefix, links appear in first-seen
document order, and each fallback strategy runs only when the previous
produced zero links. -/
def claim3Stmt : Prop :=
  ∀ doc : IndexDoc,
    ((extract_country_links doc).map Prod.snd).Nodup ∧
    (∀ l ∈ extract_country_links doc, START_URL <+: l.2) ∧
    links1 doc = firstSeenBy (cands1 doc) [] ∧
    links2 doc = firstSeenBy (cands2 doc) [] ∧
    links3 doc = firstSeenBy (cands3 doc) [] ∧
    (links1 doc ≠ [] → extract_country_links doc = links1 doc) ∧
    (links1 doc = [] → links2 doc ≠ [] → extract_country_links doc = links2 doc) ∧
    (links1 doc = [] → links2 doc = [] → extract_country_links doc = links3 doc)

/-- A GET outcome that "sees a non-2xx HTTP status or the bot-challenge
phrase in the response body" (the retry condition as the claim states it). -/
def nonSuccessResp (g : GetResult) : Prop :=
  ∃ st body, g = GetResult.response st body ∧
    (st < 200 ∨ 300 ≤ st ∨ hasBotPhrase body = true)

/-- Claim C1 as stated: whenever every one of the 3 attempts sees a non-2xx
status or the bot-challenge phrase, the fetch retries with a 2-second delay
between attempts and finally raises, returning no response. -/
def claim1Stmt : Prop :=
  ∀ get : Nat → GetResult,
    (∀ a, 1 ≤ a → a ≤ MAX_RETRIES → nonSuccessResp (get a)) →
    ∃ e, request_with_retry get = (Except.error e, [RETRY_SLEEP, RETRY_SLEEP])

/-- A GET outcome that the code actually treats as retryable: a response
whose status triggers `raise_for_status()` (4xx/5xx) or whose body carries
the bot-challenge phrase. -/
def retryableResp (g : GetResult) : Prop :=
  ∃ st body, g = GetResult.response st body ∧
    ((400 ≤ st ∧ st < 600) ∨ hasBotPhrase body = true)

/-- The sentence of claim C4's fallback scenario. -/
def sentC : Str :=
  "Currently, 54.3% of the population is urban (1,234,567 people in 2021)".data

/-- Claim C4 as stated: on every page without the structured urban heading
or paragraph whose page text contains the scenario sentence, extraction
yields percent `54.3` and absolute `1234567`. -/
def claim4Stmt : Prop :=
  ∀ (name : Str) (page : CountryPage),
    (page.urban = none ∨ page.urban = some none) →
    (∃ pre post, page.pageText = pre ++ sentC ++ post) →
    dictGet? (extract_country_data name page) keyUpPct = some (.vStr ("54.3".data)) ∧
    dictGet? (extract_country_data name page) keyUpAbs = some (.vStr ("1234567".data))

/-- The scenario sentence after its leading `C` (used to drive the leftmost
search through the sentence). -/
def sentCt : Str :=
  "urrently, 54.3% of the population is urban (1,234,567 people in 2021)".data

/-- The scenario sentence after the case-insensitive `currently` literal. -/
def sentTailA : Str :=
  ", 54.3% of the population is urban (1,234,567 people in 2021)".data

/-- The scenario sentence from its first digit. -/
def sentTailB : Str :=
  "54.3% of the population is urban (1,234,567 people in 2021)".data

/-- The scenario sentence after its first digit. -/
def sentTailBt : Str :=
  "4.3% of the population is urban (1,234,567 people in 2021)".data

/-- The scenario sentence after the percent sign. -/
def sentTailC : Str :=
  " of the population is urban (1,234,567 people in 2021)".data

/-- The part of the scenario sentence the lazy `[^\n]*?` consumes before the
opening parenthesis. -/
def sentSkipC : Str := " of the population is urban ".data

/-- The scenario sentence after the opening parenthesis. -/
def sentTailD : Str := "1,234,567 people in 2021)".data

/-- The scenario sentence from the word `people`. -/
def sentTailE : Str := "people in 2021)".data

/-- The slug href of claim C6's scenario. -/
def stpHref : Str := "/demographics/sao-tome-and-principe-demographics/".data

/-- The display name claim C6 expects. -/
def stpName : Str := "Sao Tome And Principe".data

/-- The absolute URL of claim C6's scenario link. -/
def stpUrl : Str := urljoin BASE_URL stpHref

/-- Claim C6 as stated: on every index document where strategies 1 and 2
yield no links and which contains an empty-text anchor for the scenario
slug, the resolver includes the link with the derived display name. -/
def claim6Stmt : Prop :=
  ∀ doc : IndexDoc, links1 doc = [] → links2 doc = [] →
    (Anchor.mk stpHref []) ∈ doc.anchors →
    (stpName, stpUrl) ∈ extract_country_links doc

/-- Claim C7 as stated (the part asserting that a value recovered by the
structured urban strategy is the one present in the final record, together
with the chain ordering the claim describes). -/
def claim7Stmt : Prop :=
  ∀ (name : Str) (page : CountryPage) (txt g : Str),
    page.urban = some (some txt) →
    (searchPercent txt = some g →
      dictGet? (extract_country_data name page) keyUpPct = some (.vStr g)) ∧
    (searchAbsolute txt = some g →
      dictGet? (extract_country_data name page) keyUpAbs = some (.vStr (removeCommas g)))

/-- Claim C9 as stated: every crawled record's country field is non-empty
and is the name of exactly one resolved country link. -/
def claim9Stmt : Prop :=
  ∀ (doc : IndexDoc) (fetch : Nat → Option CountryPage) (r : Dict),
    r ∈ crawl_records fetch (extract_country_links doc) →
    ∀ nm, dictGet? r keyCountry = some (.vStr nm) →
      nm ≠ [] ∧ ∃! l : Str × Str, l ∈ extract_country_links doc ∧ l.1 = nm

-- ---------------------------------------------------------------------------
-- Concrete inputs used by counterexamples and witnesses
-- ---------------------------------------------------------------------------

/-- A fetch oracle whose every attempt yields a `304 Not Modified` response
(a non-2xx status that `raise_for_status()` does not raise on). -/
def get304 : Nat → GetResult := fun _ => .response 304 ("unchanged".data)

/-- A fetch oracle whose every attempt yields a `503` response. -/
def get503 : Nat → GetResult := fun _ => .response 503 ("Service Unavailable".data)

/-- A fetch oracle whose first attempt raises a connection timeout. -/
def getTimeout : Nat → GetResult := fun _ => .netError ("connection timed out".data)

/-- A country page with no recognisable structure and empty text. -/
def pageEmpty : CountryPage := ⟨[], none, none, []⟩

/-- Counterexample page for C4: the page text contains the scenario sentence
on its own line, but an earlier line already matches the fallback pattern. -/
def page4cex : CountryPage :=
  ⟨[], none, none,
    ("Currently, 9.9% of the population is urban (5 people in 2020)".data)
      ++ '\n' :: sentC⟩

/-- Witness page for C4: the scenario sentence surrounded by unrelated
lines. -/
def page4wit : CountryPage :=
  ⟨[], none, none, ("Intro.".data) ++ '\n' :: sentC ++ '\n' :: ("Tail.".data)⟩

/-- Counterexample document for C6: an earlier anchor with the same slug URL
but non-empty text. -/
def doc6cex : IndexDoc :=
  ⟨none, [], [⟨stpHref, "X".data⟩, ⟨stpHref, []⟩]⟩

/-- Witness document for C6: an anchor for a different slug precedes the
empty-text scenario anchor. -/
def doc6wit : IndexDoc :=
  ⟨none, [], [⟨"/demographics/albania-demographics/".data, "Albania".data⟩, ⟨stpHref, []⟩]⟩

/-- Counterexample page for C7: the structured paragraph yields only the
percent, and the page text matches the fallback with different values. -/
def page7cex : CountryPage :=
  ⟨[], some (some ("54.3% urban.".data)), none,
    "Currently, 11.1% urban (5 people in 2020)".data⟩

/-- Witness page for C7: the structured paragraph yields both values, and
the page text would yield different ones. -/
def page7wit : CountryPage :=
  ⟨[], some (some ("63.0% of the population is urban (1,234 people)".data)), none,
    "Currently, 11.1% urban (5 people in 2020)".data⟩

/-- Counterexample document for C9: two empty-text anchors in the section
list produce two links both named by the empty string. -/
def doc9cex : IndexDoc :=
  ⟨some [⟨"/demographics/a/".data, []⟩, ⟨"/demographics/b/".data, []⟩], [], []⟩

/-- Witness document for C9. -/
def doc9wit : IndexDoc :=
  ⟨some [⟨"/demographics/albania-demographics/".data, "Albania".data⟩], [], []⟩

/-- A fetch oracle for which every country page fetch succeeds with the
empty page. -/
def fetchAllOk : Nat → Option CountryPage := fun _ => some pageEmpty

/-- Witness country list for C2. -/
def countries2wit : List (Str × Str) :=
  [("A".data, "uA".data), ("B".data, "uB".data), ("C".data, "uC".data)]

/-- Witness fetch oracle for C2: country 1 (0-based) fails, the others
succeed. -/
def fetch2wit : Nat → Option CountryPage := fun i => if i = 1 then none else some pageEmpty

/-- Counterexample document for C3: a section-list anchor whose href
passes the `startswith("/demographics/")` filter but contains a `..`
segment, so its joined URL escapes the country-page path prefix. -/
def doc3cex : IndexDoc :=
  ⟨some [⟨"/demographics/../x".data, "X".data⟩], [], []⟩

/-- Witness document for C3. -/
def doc3wit : IndexDoc :=
  ⟨some [⟨"/demographics/albania-demographics/".data, "Albania".data⟩,
         ⟨"/demographics/albania-demographics/".data, "Albania again".data⟩], [], []⟩

/-- A retryable outcome makes one attempt fail with an exception that the
`except` clause catches. -/
theorem attemptOutcome_of_retryable {g : GetResult} (h : retryableResp g) :
    ∃ e, attemptOutcome g = .error e ∧ isCaught e = true := by
  obtain ⟨st, body, rfl, hcond⟩ := h
  by_cases hst : 400 ≤ st ∧ st < 600
  · exact ⟨.httpError st, by simp [attemptOutcome, hst], rfl⟩
  · have hbot : hasBotPhrase body = true := by tauto
    exact ⟨.botChallenge, by simp [attemptOutcome, hst, hbot], rfl⟩

/-- When every attempt from `a` through `a + r` fails with a caught
exception, the loop sleeps `r` times and re-raises the failure of the last
attempt. -/
theorem retryAux_all_caught (get : Nat → GetResult) (e : FetchError) :
    ∀ (r a : Nat),
      (∀ j, a ≤ j → j ≤ a + r →
        ∃ e2, attemptOutcome (get j) = .error e2 ∧ isCaught e2 = true) →
      attemptOutcome (get (a + r)) = .error e →
      retryAux get a r = (.error e, List.replicate r RETRY_SLEEP) := by
  intro r
  induction r with
  | zero =>
    intro a hall hlast
    rw [Nat.add_zero] at hlast
    obtain ⟨e2, he2, hc2⟩ := hall a (le_refl a) (Nat.le_add_right a 0)
    rw [hlast] at he2
    injection he2 with he2
    subst he2
    rw [retryAux, hlast]
    simp [hc2]
  | succ r ih =>
    intro a hall hlast
    obtain ⟨e0, he0, hc0⟩ := hall a (le_refl a) (Nat.le_add_right a _)
    have hrest := ih (a + 1)
      (fun j hj1 hj2 => hall j (by omega) (by omega))
      (by rw [show a + 1 + r = a + (r + 1) by omega]; exact hlast)
    rw [retryAux, he0]
    simp [hc0, hrest, List.replicate]

/-- C1 (as stated) is false on the code: a fetch whose every attempt sees
the non-2xx status 304 is not retried at all; `raise_for_status()` raises
only for 4xx/5xx, so the 304 response is returned on the first attempt. -/
theorem claim1_counterexample : ¬ claim1Stmt := by
  intro h
  obtain ⟨e, he⟩ := h get304 (fun a _ _ => ⟨304, ("unchanged".data), rfl, by decide⟩)
  rw [show request_with_retry get304 = (Except.ok (304, ("unchanged".data)), []) from rfl] at he
  simp at he

/-- C1 amended: whenever every one of the 3 attempts sees a 4xx/5xx status
or the bot-challenge phrase in the body, the fetch sleeps 2 seconds after
each of the first two attempts and finally re-raises the failure of the
third attempt, returning no response. -/
theorem claim1_retry_exhaustion (get : Nat → GetResult)
    (h : ∀ a, 1 ≤ a → a ≤ MAX_RETRIES → retryableResp (get a)) :
    ∃ e, attemptOutcome (get MAX_RETRIES) = .error e ∧
      request_with_retry get = (Except.error e, [RETRY_SLEEP, RETRY_SLEEP]) := by
  obtain ⟨e, he, hc⟩ := attemptOutcome_of_retryable (h MAX_RETRIES (by decide) (le_refl _))
  refine ⟨e, he, ?_⟩
  have := retryAux_all_caught get e 2 1
    (fun j hj1 hj2 => attemptOutcome_of_retryable (h j hj1 (by simpa [MAX_RETRIES] using hj2)))
    (by simpa [MAX_RETRIES] using he)
  simpa [request_with_retry, MAX_RETRIES, List.replicate] using this

/-- Witness for the amended C1 at a concrete oracle: all three attempts see
a 503, two 2-second sleeps happen, and the final 503 failure is raised. -/
theorem claim1_witness :
    ∃ e, attemptOutcome (get503 MAX_RETRIES) = .error e ∧
      request_with_retry get503 = (Except.error e, [RETRY_SLEEP, RETRY_SLEEP]) :=
  claim1_retry_exhaustion get503
    (fun a _ _ => ⟨503, ("Service Unavailable".data), rfl, Or.inl (by decide)⟩)

/-- C10: a transport exception (timeout, connection error, ...) on the first
attempt is not caught by the retry clause: it propagates immediately, with
no retry and no sleep. -/
theorem claim10_net_error_propagates (get : Nat → GetResult) (m : Str)
    (h : get 1 = .netError m) :
    request_with_retry get = (Except.error (.netError m), []) := by
  rw [request_with_retry, show MAX_RETRIES - 1 = 2 from rfl, retryAux, h]
  rfl

/-- Witness for C10 at a concrete oracle raising a connection timeout. -/
theorem claim10_witness :
    request_with_retry getTimeout =
      (Except.error (.netError ("connection timed out".data)), []) :=
  claim10_net_error_propagates getTimeout ("connection timed out".data) rfl

-- ---------------------------------------------------------------------------
-- Theorems: crawl loop failure isolation (claim C2)
-- ---------------------------------------------------------------------------

/-- When every country from position `i` on is fetched successfully, the
loop produces one record per country, in order. -/
theorem crawlAux_all_ok (fetch : Nat → Option CountryPage) (pages : Nat → CountryPage) :
    ∀ (cs : List (Str × Str)) (i : Nat),
      (∀ j, j < cs.length → fetch (i + j) = some (pages (i + j))) →
      crawlAux fetch i cs =
        (List.enumFrom i cs).map fun ic => extract_country_data ic.2.1 (pages ic.1) := by
  intro cs
  induction cs with
  | nil => intro i _; rfl
  | cons c rest ih =>
    intro i hall
    have h0 := hall 0 (by simp)
    rw [Nat.add_zero] at h0
    rw [crawlAux, h0]
    have := ih (i + 1) (fun j hj => by
      have := hall (j + 1) (by simpa using Nat.succ_lt_succ hj)
      rwa [show i + (j + 1) = i + 1 + j by omega] at this)
    simp [this, List.enumFrom]

/-- When exactly the country at relative position `k` fails and every other
one succeeds, the loop's output is the per-position extraction of the list
with position `k` removed. -/
theorem crawlAux_one_fail (fetch : Nat → Option CountryPage) (pages : Nat → CountryPage) :
    ∀ (cs : List (Str × Str)) (k i : Nat), k < cs.length →
      fetch (i + k) = none →
      (∀ j, j < cs.length → j ≠ k → fetch (i + j) = some (pages (i + j))) →
      crawlAux fetch i cs =
        ((List.enumFrom i cs).eraseIdx k).map
          fun ic => extract_country_data ic.2.1 (pages ic.1) := by
  intro cs
  induction cs with
  | nil => intro k i hk; exact fun _ _ => absurd hk (by simp)
  | cons c rest ih =>
    intro k i hk hfail hok
    cases k with
    | zero =>
      rw [Nat.add_zero] at hfail
      rw [crawlAux, hfail]
      have := crawlAux_all_ok fetch pages rest (i + 1) (fun j hj => by
        have := hok (j + 1) (by simpa using Nat.succ_lt_succ hj) (by omega)
        rwa [show i + (j + 1) = i + 1 + j by omega] at this)
      simp [this, List.enumFrom]
    | succ k =>
      have h0 := hok 0 (by simp) (by omega)
      rw [Nat.add_zero] at h0
      rw [crawlAux, h0]
      have := ih k (i + 1) (by simpa using Nat.lt_of_succ_lt_succ hk)
        (by rwa [show i + 1 + k = i + (k + 1) by omega])
        (fun j hj hjk => by
          have := hok (j + 1) (by simpa using Nat.succ_lt_succ hj) (by omega)
          rwa [show i + (j + 1) = i + 1 + j by omega] at this)
      simp [this, List.enumFrom]

/-- C2: a single failure at position `k` among `n` countries leaves exactly
the records of the other `n - 1` countries, in unchanged order, each equal
to the record its own page would produce; the crawl is not aborted. -/
theorem claim2_failure_isolation (fetch : Nat → Option CountryPage)
    (countries : List (Str × Str)) (k : Nat) (pages : Nat → CountryPage)
    (hk : k < countries.length)
    (hfail : fetch k = none)
    (hok : ∀ i, i < countries.length → i ≠ k → fetch i = some (pages i)) :
    crawl_records fetch countries =
      ((countries.enum.eraseIdx k).map
        fun ic => extract_country_data ic.2.1 (pages ic.1)) ∧
    (crawl_records fetch countries).length = countries.length - 1 := by
  have heq : crawl_records fetch countries =
      ((countries.enum.eraseIdx k).map
        fun ic => extract_country_data ic.2.1 (pages ic.1)) := by
    have := crawlAux_one_fail fetch pages countries k 0 hk
      (by simpa using hfail) (fun j hj hjk => by simpa using hok j hj hjk)
    simpa [crawl_records, List.enum] using this
  refine ⟨heq, ?_⟩
  rw [heq, List.length_map, List.length_eraseIdx_of_lt (by simpa using hk)]
  simp

/-- Witness for C2: three countries, the middle one fails, the other two
records are present in order. -/
theorem claim2_witness :
    crawl_records fetch2wit countries2wit =
      ((countries2wit.enum.eraseIdx 1).map
        fun ic => extract_country_data ic.2.1 ((fun _ => pageEmpty) ic.1)) ∧
    (crawl_records fetch2wit countries2wit).length = countries2wit.length - 1 :=
  claim2_failure_isolation fetch2wit countries2wit 1 (fun _ => pageEmpty)
    (by decide) (by decide) (fun i _ hik => by
      simp only [fetch2wit, if_neg hik])

-- ---------------------------------------------------------------------------
-- Dict lemmas
-- ---------------------------------------------------------------------------

/-- Looking up the key just set yields the new value. -/
theorem dictGet?_set_self (d : Dict) (k : Str) (v : PyVal) :
    dictGet? (dictSet d k v) k = some v := by
  induction d with
  | nil => simp [dictSet, dictGet?]
  | cons kv rest ih =>
    by_cases h : kv.1 = k
    · simp [dictSet, dictGet?, h]
    · simp [dictSet, dictGet?, h, ih]

/-- Setting one key leaves lookups of other keys unchanged. -/
theorem dictGet?_set_ne (d : Dict) (k2 k : Str) (v : PyVal) (h : k2 ≠ k) :
    dictGet? (dictSet d k2 v) k = dictGet? d k := by
  have h5 : ¬(k = k2) := fun hh => h hh.symm
  induction d with
  | nil => simp [dictSet, dictGet?, h]
  | cons kv rest ih =>
    by_cases h2 : kv.1 = k2
    · simp [dictSet, dictGet?, h2, h, h5]
    · by_cases h3 : kv.1 = k <;> simp [dictSet, dictGet?, h2, h3, ih, h5]

/-- Setting a key makes it present. -/
theorem dictHasKey_set_self (d : Dict) (k : Str) (v : PyVal) :
    dictHasKey (dictSet d k v) k = true := by
  simp [dictHasKey, dictGet?_set_self]

/-- Setting one key does not change presence of other keys. -/
theorem dictHasKey_set_ne (d : Dict) (k2 k : Str) (v : PyVal) (h : k2 ≠ k) :
    dictHasKey (dictSet d k2 v) k = dictHasKey d k := by
  simp [dictHasKey, dictGet?_set_ne d k2 k v h]

/-- Lookup distributes over append, first list first. -/
theorem dictGet?_append (d1 d2 : Dict) (k : Str) :
    dictGet? (d1 ++ d2) k =
      match dictGet? d1 k with
      | some v => some v
      | none => dictGet? d2 k := by
  induction d1 with
  | nil => simp [dictGet?]
  | cons kv rest ih =>
    by_cases h : kv.1 = k <;> simp [dictGet?, h, ih]

/-- `setdefault` never changes the value of a key that is present. -/
theorem dictGet?_setdefault_of_hasKey (d : Dict) (k2 k : Str) (v : PyVal)
    (h : dictHasKey d k = true) :
    dictGet? (dictSetdefault d k2 v) k = dictGet? d k := by
  unfold dictSetdefault
  by_cases h2 : dictHasKey d k2 = true
  · simp [h2]
  · simp only [h2]
    rw [if_neg (by simp [h2])]
    rw [dictGet?_append]
    simp only [dictHasKey] at h
    obtain ⟨v2, hv2⟩ := Option.isSome_iff_exists.mp h
    simp [hv2]

/-- `setdefault` preserves key presence. -/
theorem dictHasKey_setdefault_mono (d : Dict) (k2 k : Str) (v : PyVal)
    (h : dictHasKey d k = true) :
    dictHasKey (dictSetdefault d k2 v) k = true := by
  simp [dictHasKey, dictGet?_setdefault_of_hasKey d k2 k v h]
  simp only [dictHasKey] at h
  exact h

/-- `setdefault` makes its own key present. -/
theorem dictHasKey_setdefault_self (d : Dict) (k : Str) (v : PyVal) :
    dictHasKey (dictSetdefault d k v) k = true := by
  unfold dictSetdefault
  by_cases h : dictHasKey d k = true
  · simp [h]
  · rw [if_neg (by simp [h])]
    simp only [dictHasKey] at h ⊢
    rw [dictGet?_append]
    simp at h
    simp [h, dictGet?]

/-- `setdefault` of an absent key appends it with the default value. -/
theorem dictGet?_setdefault_absent (d : Dict) (k : Str) (v : PyVal)
    (h : dictHasKey d k = false) :
    dictGet? (dictSetdefault d k v) k = some v := by
  unfold dictSetdefault
  rw [if_neg (by simp [h])]
  rw [dictGet?_append]
  simp only [dictHasKey] at h
  simp at h
  simp [h, dictGet?]

/-- The final `setdefault` loop preserves the values of present keys. -/
theorem foldSetdefault_of_hasKey (ks : List Str) :
    ∀ (d : Dict) (k : Str), dictHasKey d k = true →
      dictGet? (ks.foldl (fun r k2 => dictSetdefault r k2 .vNone) d) k = dictGet? d k := by
  induction ks with
  | nil => intro d k _; rfl
  | cons k2 rest ih =>
    intro d k h
    rw [List.foldl_cons, ih _ _ (dictHasKey_setdefault_mono d k2 k _ h),
      dictGet?_setdefault_of_hasKey d k2 k _ h]

/-- The `setdefault` loop preserves key presence. -/
theorem foldSetdefault_hasKey_mono (ks : List Str) :
    ∀ (d : Dict) (k : Str), dictHasKey d k = true →
      dictHasKey (ks.foldl (fun r k2 => dictSetdefault r k2 .vNone) d) k = true := by
  induction ks with
  | nil => intro d k h; exact h
  | cons k2 rest ih =>
    intro d k h
    rw [List.foldl_cons]
    exact ih _ _ (dictHasKey_setdefault_mono d k2 k _ h)

/-- After the `setdefault` loop every looped-over key is present. -/
theorem foldSetdefault_hasKey (ks : List Str) :
    ∀ (d : Dict) (k : Str), k ∈ ks →
      dictHasKey (ks.foldl (fun r k2 => dictSetdefault r k2 .vNone) d) k = true := by
  induction ks with
  | nil => intro d k h; cases h
  | cons k2 rest ih =>
    intro d k h
    rw [List.foldl_cons]
    by_cases hk : k = k2
    · subst hk
      exact foldSetdefault_hasKey_mono rest _ k (dictHasKey_setdefault_self d k .vNone)
    · have hmem : k ∈ rest := by
        rcases List.mem_cons.mp h with h1 | h1
        · exact absurd h1 hk
        · exact h1
      exact ih _ _ hmem

/-- A key absent before the `setdefault` loop but among the looped-over keys
ends up mapped to `None`. -/
theorem foldSetdefault_absent (ks : List Str) (hnd : ks.Nodup) :
    ∀ (d : Dict) (k : Str), k ∈ ks → dictHasKey d k = false →
      dictGet? (ks.foldl (fun r k2 => dictSetdefault r k2 .vNone) d) k = some .vNone := by
  induction ks with
  | nil => intro d k h; cases h
  | cons k2 rest ih =>
    intro d k h habs
    rw [List.foldl_cons]
    by_cases hk : k = k2
    · subst hk
      rw [foldSetdefault_of_hasKey rest _ k (dictHasKey_setdefault_self d k .vNone)]
      exact dictGet?_setdefault_absent d k .vNone habs
    · have hmem : k ∈ rest := by
        rcases List.mem_cons.mp h with h1 | h1
        · exact absurd h1 hk
        · exact h1
      refine ih (List.Nodup.of_cons hnd) _ _ hmem ?_
      unfold dictSetdefault
      by_cases h2 : dictHasKey d k2 = true
      · simp [h2, habs]
      · rw [if_neg (by simp [h2])]
        simp only [dictHasKey] at habs ⊢
        rw [dictGet?_append]
        simp at habs
        simp [habs, dictGet?, Ne.symm hk]

-- ---------------------------------------------------------------------------
-- Theorems: record shape (claim C5)
-- ---------------------------------------------------------------------------

/-- C5: every extracted record contains all six numeric keys, and a key that
no strategy resolved is mapped to `None`; extraction is a total function, so
an extraction miss never raises. -/
theorem claim5_all_fields_present (name : Str) (page : CountryPage) :
    ∀ k ∈ NUMERIC_COLUMNS,
      dictHasKey (extract_country_data name page) k = true ∧
      (dictHasKey (extractPre name page) k = false →
        dictGet? (extract_country_data name page) k = some PyVal.vNone) := by
  intro k hk
  constructor
  · exact foldSetdefault_hasKey NUMERIC_COLUMNS _ k hk
  · intro habs
    exact foldSetdefault_absent NUMERIC_COLUMNS (by decide) _ k hk habs

/-- Witness for C5 on a concrete page with no extractable structure: the
life-expectancy key is present and mapped to `None`. -/
theorem claim5_witness :
    dictHasKey (extract_country_data ("W".data) pageEmpty) keyLeBoth = true ∧
    (dictHasKey (extractPre ("W".data) pageEmpty) keyLeBoth = false →
      dictGet? (extract_country_data ("W".data) pageEmpty) keyLeBoth = some PyVal.vNone) :=
  claim5_all_fields_present ("W".data) pageEmpty keyLeBoth (by decide)

-- ---------------------------------------------------------------------------
-- Extractor step lemmas
-- ---------------------------------------------------------------------------

/-- One life-expectancy block touches only the three life-expectancy keys. -/
theorem leBlockStep_get_ne (r : Dict) (blk : Option Str × Option Str) (k : Str)
    (h1 : keyLeBoth ≠ k) (h2 : keyLeFemale ≠ k) (h3 : keyLeMale ≠ k) :
    dictGet? (leBlockStep r blk) k = dictGet? r k := by
  rcases blk with ⟨lab, v⟩
  cases lab with
  | none => rfl
  | some lab =>
    cases v with
    | none => rfl
    | some v =>
      simp only [leBlockStep]
      split_ifs <;>
        first
        | rfl
        | rw [dictGet?_set_ne _ _ _ _ h1]
        | rw [dictGet?_set_ne _ _ _ _ h2]
        | rw [dictGet?_set_ne _ _ _ _ h3]

/-- The life-expectancy loop touches only the three life-expectancy keys. -/
theorem leFold_get_ne (blocks : List (Option Str × Option Str)) :
    ∀ (r : Dict) (k : Str), keyLeBoth ≠ k → keyLeFemale ≠ k → keyLeMale ≠ k →
      dictGet? (blocks.foldl leBlockStep r) k = dictGet? r k := by
  induction blocks with
  | nil => intro r k _ _ _; rfl
  | cons blk rest ih =>
    intro r k h1 h2 h3
    rw [List.foldl_cons, ih _ _ h1 h2 h3, leBlockStep_get_ne r blk k h1 h2 h3]

/-- The structured urban strategy touches only the two urban keys. -/
theorem urbanStructured_get_ne (r : Dict) (urb : Option (Option Str)) (k : Str)
    (h1 : keyUpPct ≠ k) (h2 : keyUpAbs ≠ k) :
    dictGet? (urbanStructured r urb) k = dictGet? r k := by
  match urb with
  | none => rfl
  | some none => rfl
  | some (some txt) =>
    simp only [urbanStructured]
    cases searchPercent txt <;> cases searchAbsolute txt <;>
      simp only [] <;>
      first
      | rfl
      | rw [dictGet?_set_ne _ _ _ _ h2, dictGet?_set_ne _ _ _ _ h1]
      | rw [dictGet?_set_ne _ _ _ _ h1]
      | rw [dictGet?_set_ne _ _ _ _ h2]

/-- The urban fallback step touches only the two urban keys. -/
theorem urbanFallback_get_ne (r : Dict) (pageText : Str) (k : Str)
    (h1 : keyUpPct ≠ k) (h2 : keyUpAbs ≠ k) :
    dictGet? (urbanFallback r pageText) k = dictGet? r k := by
  unfold urbanFallback
  split_ifs
  · cases hsr : urbSearch pageText with
    | none => rfl
    | some g => rw [dictGet?_set_ne _ _ _ _ h2, dictGet?_set_ne _ _ _ _ h1]
  · rfl

/-- The structured density strategy touches only the density key. -/
theorem densityStructured_get_ne (r : Dict) (den : Option (Option Str)) (k : Str)
    (h : keyDensity ≠ k) :
    dictGet? (densityStructured r den) k = dictGet? r k := by
  match den with
  | none => rfl
  | some none => rfl
  | some (some txt) =>
    simp only [densityStructured]
    cases searchDensity txt
    · rfl
    · rw [dictGet?_set_ne _ _ _ _ h]

/-- The density fallback step touches only the density key. -/
theorem densityFallback_get_ne (r : Dict) (pageText : Str) (k : Str)
    (h : keyDensity ≠ k) :
    dictGet? (densityFallback r pageText) k = dictGet? r k := by
  unfold densityFallback
  split_ifs
  · cases searchDensityFb pageText
    · rfl
    · rw [dictGet?_set_ne _ _ _ _ h]
  · rfl

/-- The record holds the country name under `"country"` from start to
finish: no later step of the extractor writes to that key. -/
theorem extract_country_data_country (name : Str) (page : CountryPage) :
    dictGet? (extract_country_data name page) keyCountry = some (.vStr name) := by
  have hpre : dictGet? (extractPre name page) keyCountry = some (.vStr name) := by
    unfold extractPre
    rw [densityFallback_get_ne _ _ _ (by decide),
      densityStructured_get_ne _ _ _ (by decide),
      urbanFallback_get_ne _ _ _ (by decide) (by decide),
      urbanStructured_get_ne _ _ _ (by decide) (by decide),
      leFold_get_ne _ _ _ (by decide) (by decide) (by decide)]
    rfl
  unfold extract_country_data
  rw [foldSetdefault_of_hasKey _ _ _ (by simp [dictHasKey, hpre])]
  exact hpre

-- ---------------------------------------------------------------------------
-- Theorems: urban strategy chain (claim C7)
-- ---------------------------------------------------------------------------

/-- The record produced by the blocks loop contains no urban keys. -/
theorem leFold_no_urban (name : Str) (blocks : List (Option Str × Option Str)) :
    dictGet? (blocks.foldl leBlockStep [(keyCountry, .vStr name)]) keyUpPct = none ∧
    dictGet? (blocks.foldl leBlockStep [(keyCountry, .vStr name)]) keyUpAbs = none := by
  constructor <;>
    · rw [leFold_get_ne _ _ _ (by decide) (by decide) (by decide)]
      simp only [dictGet?]
      rw [if_neg (by decide)]

/-- C7 (as stated) is false on the code: when the structured strategy finds
the percent but not the absolute count, the fallback overwrites the
structured percent.  On the counterexample page the structured paragraph
yields `54.3` but the final record holds the fallback's `11.1`. -/
theorem claim7_counterexample : ¬ claim7Stmt := by
  intro h
  have h2 := (h ("X".data) page7cex ("54.3% urban.".data) ("54.3".data) rfl).1 (by decide)
  exact absurd h2 (by decide)

/-- C7 amended: the urban chain is ordered and the fallback fires only when
the percent or the absolute value is still missing after the structured
strategy; when the structured strategy recovered both, those values are the
ones in the final record; but when either is missing and the fallback
pattern matches the page text, both values are set from the fallback match
(a structured value already present is overwritten). -/
theorem claim7_urban_chain (name : Str) (page : CountryPage) (txt : Str)
    (hurb : page.urban = some (some txt)) :
    (∀ p a2, searchPercent txt = some p → searchAbsolute txt = some a2 →
      dictGet? (extract_country_data name page) keyUpPct = some (.vStr p) ∧
      dictGet? (extract_country_data name page) keyUpAbs =
        some (.vStr (removeCommas a2))) ∧
    (∀ g1 g2, (searchPercent txt = none ∨ searchAbsolute txt = none) →
      urbSearch page.pageText = some (g1, g2) →
      dictGet? (extract_country_data name page) keyUpPct = some (.vStr g1) ∧
      dictGet? (extract_country_data name page) keyUpAbs =
        some (.vStr (stripSpaceComma g2))) := by
  have hne1 : keyUpAbs ≠ keyUpPct := by decide
  have hne2 : keyUpPct ≠ keyUpAbs := by decide
  obtain ⟨hb1, hb2⟩ := leFold_no_urban name page.leBlocks
  constructor
  · intro p a2 hp ha
    have hstruct : urbanStructured
        (page.leBlocks.foldl leBlockStep [(keyCountry, .vStr name)]) page.urban =
        dictSet (dictSet (page.leBlocks.foldl leBlockStep [(keyCountry, .vStr name)])
          keyUpPct (.vStr p)) keyUpAbs (.vStr (removeCommas a2)) := by
      rw [hurb]
      simp only [urbanStructured, hp, ha]
    have hgp : dictGet? (urbanStructured
        (page.leBlocks.foldl leBlockStep [(keyCountry, .vStr name)]) page.urban)
        keyUpPct = some (.vStr p) := by
      rw [hstruct, dictGet?_set_ne _ _ _ _ hne1, dictGet?_set_self]
    have hga : dictGet? (urbanStructured
        (page.leBlocks.foldl leBlockStep [(keyCountry, .vStr name)]) page.urban)
        keyUpAbs = some (.vStr (removeCommas a2)) := by
      rw [hstruct, dictGet?_set_self]
    have hfb : urbanFallback (urbanStructured
        (page.leBlocks.foldl leBlockStep [(keyCountry, .vStr name)]) page.urban)
        page.pageText = urbanStructured
        (page.leBlocks.foldl leBlockStep [(keyCountry, .vStr name)]) page.urban := by
      unfold urbanFallback
      rw [if_neg]
      simp [dictHasKey, hgp, hga]
    constructor
    · unfold extract_country_data extractPre
      rw [foldSetdefault_of_hasKey _ _ _ (by
          simp only [dictHasKey]
          rw [densityFallback_get_ne _ _ _ (by decide),
            densityStructured_get_ne _ _ _ (by decide), hfb, hgp]
          rfl),
        densityFallback_get_ne _ _ _ (by decide),
        densityStructured_get_ne _ _ _ (by decide), hfb, hgp]
    · unfold extract_country_data extractPre
      rw [foldSetdefault_of_hasKey _ _ _ (by
          simp only [dictHasKey]
          rw [densityFallback_get_ne _ _ _ (by decide),
            densityStructured_get_ne _ _ _ (by decide), hfb, hga]
          rfl),
        densityFallback_get_ne _ _ _ (by decide),
        densityStructured_get_ne _ _ _ (by decide), hfb, hga]
  · intro g1 g2 hmiss hsearch
    have hmiss2 : dictGet? (urbanStructured
        (page.leBlocks.foldl leBlockStep [(keyCountry, .vStr name)]) page.urban)
        keyUpPct = none ∨
        dictGet? (urbanStructured
          (page.leBlocks.foldl leBlockStep [(keyCountry, .vStr name)]) page.urban)
          keyUpAbs = none := by
      rw [hurb]
      rcases hmiss with hm | hm
      · left
        simp only [urbanStructured, hm]
        cases searchAbsolute txt
        · simpa using hb1
        · rw [dictGet?_set_ne _ _ _ _ hne1]; simpa using hb1
      · right
        simp only [urbanStructured, hm]
        cases searchPercent txt
        · simpa using hb2
        · rw [dictGet?_set_ne _ _ _ _ hne2]; simpa using hb2
    have hfb : urbanFallback (urbanStructured
        (page.leBlocks.foldl leBlockStep [(keyCountry, .vStr name)]) page.urban)
        page.pageText =
        dictSet (dictSet (urbanStructured
          (page.leBlocks.foldl leBlockStep [(keyCountry, .vStr name)]) page.urban)
          keyUpPct (.vStr g1)) keyUpAbs (.vStr (stripSpaceComma g2)) := by
      unfold urbanFallback
      rw [if_pos, hsearch]
      rcases hmiss2 with hm | hm <;> simp [dictHasKey, hm]
    have hgp : dictGet? (urbanFallback (urbanStructured
        (page.leBlocks.foldl leBlockStep [(keyCountry, .vStr name)]) page.urban)
        page.pageText) keyUpPct = some (.vStr g1) := by
      rw [hfb, dictGet?_set_ne _ _ _ _ hne1, dictGet?_set_self]
    have hga : dictGet? (urbanFallback (urbanStructured
        (page.leBlocks.foldl leBlockStep [(keyCountry, .vStr name)]) page.urban)
        page.pageText) keyUpAbs = some (.vStr (stripSpaceComma g2)) := by
      rw [hfb, dictGet?_set_self]
    constructor
    · unfold extract_country_data extractPre
      rw [foldSetdefault_of_hasKey _ _ _ (by
          simp only [dictHasKey]
          rw [densityFallback_get_ne _ _ _ (by decide),
            densityStructured_get_ne _ _ _ (by decide), hgp]
          rfl),
        densityFallback_get_ne _ _ _ (by decide),
        densityStructured_get_ne _ _ _ (by decide), hgp]
    · unfold extract_country_data extractPre
      rw [foldSetdefault_of_hasKey _ _ _ (by
          simp only [dictHasKey]
          rw [densityFallback_get_ne _ _ _ (by decide),
            densityStructured_get_ne _ _ _ (by decide), hga]
          rfl),
        densityFallback_get_ne _ _ _ (by decide),
        densityStructured_get_ne _ _ _ (by decide), hga]

/-- Witness for the amended C7: the structured paragraph yields both values
and they survive into the final record even though the page text would
match the fallback with different values. -/
theorem claim7_witness :
    dictGet? (extract_country_data ("X".data) page7wit) keyUpPct =
      some (.vStr ("63.0".data)) ∧
    dictGet? (extract_country_data ("X".data) page7wit) keyUpAbs =
      some (.vStr ("1234".data)) := by
  have h := (claim7_urban_chain ("X".data) page7wit
    ("63.0% of the population is urban (1,234 people)".data) rfl).1
    ("63.0".data) ("1,234".data) (by decide) (by decide)
  exact ⟨h.1, by
    have := h.2
    rwa [show removeCommas ("1,234".data) = "1234".data from by decide] at this⟩

-- ---------------------------------------------------------------------------
-- Theorems: record provenance (claim C9)
-- ---------------------------------------------------------------------------

/-- Every record produced by the crawl loop is the extraction of some listed
country under that country's name. -/
theorem crawlAux_mem (fetch : Nat → Option CountryPage) :
    ∀ (cs : List (Str × Str)) (i : Nat) (r : Dict), r ∈ crawlAux fetch i cs →
      ∃ c ∈ cs, ∃ page, r = extract_country_data c.1 page := by
  intro cs
  induction cs with
  | nil => intro i r h; cases h
  | cons c rest ih =>
    intro i r h
    rw [crawlAux] at h
    cases hf : fetch i with
    | none =>
      rw [hf] at h
      obtain ⟨c2, hc2, page, hpage⟩ := ih (i + 1) r h
      exact ⟨c2, List.mem_cons_of_mem c hc2, page, hpage⟩
    | some page =>
      rw [hf] at h
      rcases List.mem_cons.mp h with h1 | h1
      · exact ⟨c, List.mem_cons_self c rest, page, h1⟩
      · obtain ⟨c2, hc2, page2, hpage2⟩ := ih (i + 1) r h1
        exact ⟨c2, List.mem_cons_of_mem c hc2, page2, hpage2⟩

/-- C9 (as stated) is false on the code: strategies 1 and 2 keep an empty
anchor text as the country name, so a record's country field can be empty
(and, with two empty-text anchors, shared by two distinct links). -/
theorem claim9_counterexample : ¬ claim9Stmt := by
  intro h
  have h2 := h doc9cex fetchAllOk (extract_country_data [] pageEmpty) (by decide)
    [] (by decide)
  exact h2.1 rfl

/-- C9 amended: every record's country field holds the name of at least one
country link returned by the resolver and consumed during the crawl (the
name may be empty and may be shared by several links, since strategies 1
and 2 keep anchor texts verbatim and deduplicate by URL only). -/
theorem claim9_country_from_link (doc : IndexDoc) (fetch : Nat → Option CountryPage)
    (r : Dict) (h : r ∈ crawl_records fetch (extract_country_links doc)) :
    ∃ nm url, dictGet? r keyCountry = some (.vStr nm) ∧
      (nm, url) ∈ extract_country_links doc := by
  obtain ⟨c, hc, page, rfl⟩ := crawlAux_mem fetch (extract_country_links doc) 0 r h
  exact ⟨c.1, c.2, extract_country_data_country c.1 page, by simpa using hc⟩

/-- Witness for the amended C9 at a concrete crawl. -/
theorem claim9_witness :
    ∃ nm url,
      dictGet? (extract_country_data ("Albania".data) pageEmpty) keyCountry =
        some (.vStr nm) ∧
      (nm, url) ∈ extract_country_links doc9wit :=
  claim9_country_from_link doc9wit fetchAllOk
    (extract_country_data ("Albania".data) pageEmpty) (by decide)

-- ---------------------------------------------------------------------------
-- Theorems: numeric normalization (claim C8)
-- ---------------------------------------------------------------------------

/-- A filtered fold is the fold over the filter-mapped candidates. -/
theorem foldl_if_filterMap {α β σ : Type} (p : α → Bool) (g : α → β) (f : σ → β → σ) :
    ∀ (xs : List α) (st : σ),
      xs.foldl (fun st a => if p a then f st (g a) else st) st =
        (xs.filterMap fun a => if p a then some (g a) else none).foldl f st := by
  intro xs
  induction xs with
  | nil => intro st; rfl
  | cons a rest ih =>
    intro st
    rw [List.foldl_cons, List.filterMap_cons]
    by_cases h : p a = true
    · simp only [h, if_true, List.foldl_cons]
      exact ih _
    · simp only [eq_false_of_ne_true h, if_false]
      exact ih _

/-- The imperative `links`/`seen` fold refines the declarative first-seen
deduplication: the fold appends exactly the first-seen candidates and
records their URLs. -/
theorem foldAddLink_firstSeen :
    ∀ (cs l : List (Str × Str)) (s : List Str),
      cs.foldl addLink (l, s) =
        (l ++ firstSeenBy cs s, s ++ (firstSeenBy cs s).map Prod.snd) := by
  intro cs
  induction cs with
  | nil => intro l s; simp [firstSeenBy]
  | cons c rest ih =>
    intro l s
    rw [List.foldl_cons]
    by_cases h : c.2 ∈ s
    · rw [show addLink (l, s) c = (l, s) from by simp [addLink, h]]
      rw [ih l s]
      simp [firstSeenBy, h]
    · rw [show addLink (l, s) c = (l ++ [c], s ++ [c.2]) from by simp [addLink, h]]
      rw [ih (l ++ [c]) (s ++ [c.2])]
      simp [firstSeenBy, h]

/-- Strategy 1 is the candidate fold of its filtered anchors. -/
theorem strat1_eq_fold (doc : IndexDoc) (st : LinkState) :
    strat1 doc st = (cands1 doc).foldl addLink st := by
  unfold strat1 cands1
  cases doc.sectionUl with
  | none => rfl
  | some ancs =>
    exact foldl_if_filterMap (fun a => demoPath.isPrefixOf a.href)
      (fun a => (a.text, urljoin BASE_URL a.href)) addLink ancs st

/-- Strategy 2 is the candidate fold of its filtered anchors. -/
theorem strat2_eq_fold (doc : IndexDoc) (st : LinkState) :
    strat2 doc st = (cands2 doc).foldl addLink st := by
  unfold strat2 cands2
  induction doc.divs generalizing st with
  | nil => rfl
  | cons dv rest ih =>
    rw [List.foldl_cons, List.map_cons, List.flatten_cons, List.foldl_append]
    by_cases h : strContainsSub dv.1 ("Demographics of Countries".data) = true
    · simp only [h, if_true]
      rw [foldl_if_filterMap
        (fun a => demoPath.isPrefixOf a.href && !strContainsSub a.href worldSeg)
        (fun a => (a.text, urljoin BASE_URL a.href)) addLink dv.2 st]
      exact ih _
    · simp only [eq_false_of_ne_true h, if_false]
      exact ih st

/-- Strategy 3 is the candidate fold of its filtered anchors. -/
theorem strat3_eq_fold (doc : IndexDoc) (st : LinkState) :
    strat3 doc st = (cands3 doc).foldl addLink st := by
  unfold strat3 cands3
  exact foldl_if_filterMap
    (fun a => demoPath.isPrefixOf a.href && !strContainsSub a.href worldSeg
      && countrySlugHref a.href)
    (fun a => ((if a.text.isEmpty then slugToName a.href else a.text),
      urljoin BASE_URL a.href)) addLink doc.anchors st

/-- Each strategy's link list from the empty state is the first-seen
deduplication of its candidate list. -/
theorem links1_eq_firstSeen (doc : IndexDoc) :
    strat1 doc ([], []) = (firstSeenBy (cands1 doc) [],
      (firstSeenBy (cands1 doc) []).map Prod.snd) := by
  rw [strat1_eq_fold, foldAddLink_firstSeen]
  simp

/-- Strategy 2 from the empty state, declaratively. -/
theorem links2_eq_firstSeen (doc : IndexDoc) :
    strat2 doc ([], []) = (firstSeenBy (cands2 doc) [],
      (firstSeenBy (cands2 doc) []).map Prod.snd) := by
  rw [strat2_eq_fold, foldAddLink_firstSeen]
  simp

/-- Strategy 3 from the empty state, declaratively. -/
theorem links3_eq_firstSeen (doc : IndexDoc) :
    strat3 doc ([], []) = (firstSeenBy (cands3 doc) [],
      (firstSeenBy (cands3 doc) []).map Prod.snd) := by
  rw [strat3_eq_fold, foldAddLink_firstSeen]
  simp

/-- First-seen deduplication produces pairwise-distinct URLs, none of them
already seen. -/
theorem firstSeenBy_nodup :
    ∀ (cs : List (Str × Str)) (s : List Str),
      ((firstSeenBy cs s).map Prod.snd).Nodup ∧
      ∀ u ∈ (firstSeenBy cs s).map Prod.snd, u ∉ s := by
  intro cs
  induction cs with
  | nil => intro s; simp [firstSeenBy]
  | cons c rest ih =>
    intro s
    by_cases h : c.2 ∈ s
    · simpa [firstSeenBy, h] using ih s
    · obtain ⟨ihn, ihs⟩ := ih (s ++ [c.2])
      simp only [firstSeenBy, h, if_false, ite_false, List.map_cons]
      constructor
      · refine List.nodup_cons.mpr ⟨?_, ihn⟩
        intro hmem
        have := ihs _ hmem
        simp at this
      · intro u hu
        rcases List.mem_cons.mp hu with h1 | h1
        · subst h1; exact h
        · have := ihs _ h1
          intro hus
          exact this (by simp [hus])

/-- Every deduplicated link is one of the candidates. -/
theorem firstSeenBy_subset :
    ∀ (cs : List (Str × Str)) (s : List Str) (l : Str × Str),
      l ∈ firstSeenBy cs s → l ∈ cs := by
  intro cs
  induction cs with
  | nil => intro s l h; simp [firstSeenBy] at h
  | cons c rest ih =>
    intro s l h
    by_cases hc : c.2 ∈ s
    · rw [firstSeenBy, if_pos hc] at h
      exact List.mem_cons_of_mem c (ih _ _ h)
    · rw [firstSeenBy, if_neg hc] at h
      rcases List.mem_cons.mp h with h1 | h1
      · exact h1 ▸ List.mem_cons_self c rest
      · exact List.mem_cons_of_mem c (ih _ _ h1)

/-- A prefix relation is preserved by appending the same list on the left. -/
theorem isPrefix_append_left (l s t : Str) (h : s <+: t) : (l ++ s) <+: (l ++ t) := by
  obtain ⟨r, rfl⟩ := h
  exact ⟨r, by simp⟩

/-- The slash-restoring tail of the path reassembly always yields a list
starting with `'/'`. -/
theorem ensureSlash_head (j : Str) : ∃ u, ensureSlash j = '/' :: u := by
  unfold ensureSlash
  by_cases he : j.isEmpty = true
  · simp [he]
  · cases j with
    | nil => simp at he
    | cons c t =>
      simp only [he]
      by_cases hc : c = '/'
      · subst hc
        rw [if_neg (by simp), if_pos (by simp)]
        exact ⟨t, rfl⟩
      · rw [if_neg (by simp), if_neg (by simp [hc])]
        exact ⟨c :: t, rfl⟩

/-- A resolved path always starts with `'/'`. -/
theorem removeDotSegments_head (p : Str) : ∃ u, removeDotSegments p = '/' :: u := by
  unfold removeDotSegments
  exact ensureSlash_head _

/-- List algebra: gluing a slash-headed middle into an append chain. -/
theorem append_slash_glue (b u A B C : Str) :
    b ++ ('/' :: u) ++ A ++ B ++ C = b ++ '/' :: (u ++ A ++ B ++ C) := by
  simp [List.append_assoc]

/-- Every joined URL of a non-empty href extends the base URL followed by
a slash. -/
theorem urljoin_base_slash (base rel : Str) (hne : rel ≠ []) :
    ∃ u, urljoin base rel = base ++ '/' :: u := by
  obtain ⟨u, hu⟩ := removeDotSegments_head (hrefPath rel)
  unfold urljoin
  rw [if_neg (by simpa using hne), hu, append_slash_glue]
  exact ⟨_, rfl⟩

/-- `takeWhile` walks through an entirely satisfying left part. -/
theorem takeWhile_append_all (f : Char → Bool) :
    ∀ (xs ys : List Char), xs.all f = true →
      (xs ++ ys).takeWhile f = xs ++ ys.takeWhile f := by
  intro xs
  induction xs with
  | nil => intro ys _; rfl
  | cons c rest ih =>
    intro ys h
    rw [List.all_cons, Bool.and_eq_true] at h
    rw [List.cons_append, List.takeWhile_cons, if_pos h.1, ih ys h.2]
    rfl

/-- `takeWhile` never reaches past a failing separator. -/
theorem takeWhile_append_stop (p : Char → Bool) (c : Char) (hc : p c = false) :
    ∀ (u w : List Char), (u ++ c :: w).takeWhile p = u.takeWhile p := by
  intro u
  induction u with
  | nil => intro w; rw [List.nil_append, List.takeWhile_cons, if_neg (by simp [hc])]; rfl
  | cons a u2 ih =>
    intro w
    rw [List.cons_append, List.takeWhile_cons, List.takeWhile_cons]
    by_cases ha : p a = true
    · rw [if_pos ha, if_pos ha, ih w]
    · rw [if_neg ha, if_neg ha]

/-- `urlsplit`'s cleaning keeps the leading `"/demographics/"` of an href
that passed the raw `startswith` filter. -/
theorem cleanUrl_demo (rel : Str) (h : demoPath.isPrefixOf rel = true) :
    ∃ t, cleanUrl rel = demoPath ++ t := by
  obtain ⟨t0, rfl⟩ := List.isPrefixOf_iff_prefix.mp h
  unfold cleanUrl
  rw [show demoPath ++ t0 = '/' :: (("demographics/".data) ++ t0) from rfl,
    List.dropWhile_cons, if_neg (by decide),
    show ('/' : Char) :: (("demographics/".data) ++ t0) = demoPath ++ t0 from rfl,
    List.filter_append,
    show demoPath.filter (fun c => !isTabCrLf c) = demoPath from by decide]
  exact ⟨t0.filter (fun c => !isTabCrLf c), rfl⟩

/-- The last segment of `"/demographics/" ++ y` is the last segment of
`y` (the prefix ends with a slash). -/
theorem lastSeg_append_demo (y : Str) : lastSeg (demoPath ++ y) = lastSeg y := by
  unfold lastSeg
  rw [List.reverse_append,
    show demoPath.reverse = '/' :: ("scihpargomed/".data) from by decide,
    takeWhile_append_stop _ '/' (by decide)]

/-- The last segment is a suffix, hence no longer than the string. -/
theorem lastSeg_length_le (y : Str) : (lastSeg y).length ≤ y.length := by
  unfold lastSeg
  rw [List.length_reverse]
  calc (y.reverse.takeWhile (· != '/')).length ≤ y.reverse.length :=
        (List.takeWhile_prefix _).length_le
    _ = y.length := List.length_reverse y

/-- Splitting params off `"/demographics/" ++ y` keeps the prefix. -/
theorem splitParams_demo (y : Str) :
    ∃ z, (splitParams (demoPath ++ y)).1 = demoPath ++ z := by
  unfold splitParams
  rw [lastSeg_append_demo y]
  by_cases hc : ((lastSeg y).takeWhile (fun c => c ≠ ';')).length = (lastSeg y).length
  · rw [if_pos hc]
    exact ⟨y, rfl⟩
  · rw [if_neg hc]
    have hlen := lastSeg_length_le y
    rw [List.length_append,
      show demoPath.length + y.length - (lastSeg y).length =
        demoPath.length + (y.length - (lastSeg y).length) from by omega,
      List.take_append]
    exact ⟨y.take (y.length - (lastSeg y).length)
      ++ (lastSeg y).takeWhile (fun c => c ≠ ';'), by simp [List.append_assoc]⟩

/-- The resolved path component of a filtered href keeps the
`"/demographics/"` prefix. -/
theorem hrefPath_demo (rel : Str) (h : demoPath.isPrefixOf rel = true) :
    ∃ t, hrefPath rel = demoPath ++ t := by
  obtain ⟨t1, h1⟩ := cleanUrl_demo rel h
  unfold hrefPath hrefPath0 hrefBeforeHash
  rw [h1, takeWhile_append_all _ _ _ (by decide), takeWhile_append_all _ _ _ (by decide)]
  exact splitParams_demo _

/-- List algebra: a shared-prefix append chain. -/
theorem prefix_glue (b d t A B C : Str) :
    (b ++ d) <+: (b ++ (d ++ t) ++ A ++ B ++ C) :=
  ⟨t ++ A ++ B ++ C, by simp [List.append_assoc]⟩

/-- A filtered href whose path is unchanged by dot-segment resolution joins
to a URL extending the full country-page prefix `START_URL`. -/
theorem urljoin_demo_prefix (rel : Str) (h : demoPath.isPrefixOf rel = true)
    (hs : urlNormStable rel = true) : START_URL <+: urljoin BASE_URL rel := by
  obtain ⟨t, ht⟩ := hrefPath_demo rel h
  have hstable : removeDotSegments (hrefPath rel) = hrefPath rel := by
    simpa [urlNormStable] using hs
  have hne : ¬(rel.isEmpty = true) := by
    cases rel with
    | nil => exact absurd h (by decide)
    | cons c t2 => simp
  rw [show START_URL = BASE_URL ++ demoPath from by decide]
  unfold urljoin
  rw [if_neg hne, hstable, ht]
  exact prefix_glue BASE_URL demoPath t _ _ _

/-- Every candidate of every strategy is the join of some document anchor's
href, an href that passed the raw `startswith("/demographics/")` filter. -/
theorem cands_url_provenance (doc : IndexDoc) (l : Str × Str)
    (h : l ∈ cands1 doc ∨ l ∈ cands2 doc ∨ l ∈ cands3 doc) :
    ∃ a : Anchor, a ∈ docAnchors doc ∧ demoPath.isPrefixOf a.href = true ∧
      l.2 = urljoin BASE_URL a.href := by
  rcases h with h | h | h
  · unfold cands1 at h
    cases hsec : doc.sectionUl with
    | none => rw [hsec] at h; cases h
    | some ancs =>
      rw [hsec] at h
      obtain ⟨a, hmem, ha⟩ := List.mem_filterMap.mp h
      by_cases hp : demoPath.isPrefixOf a.href = true
      · rw [if_pos hp] at ha
        refine ⟨a, ?_, hp, ?_⟩
        · unfold docAnchors
          rw [hsec]
          exact List.mem_append_left _ (List.mem_append_left _ (by simpa using hmem))
        · rw [← Option.some.inj ha]
      · rw [if_neg hp] at ha; cases ha
  · unfold cands2 at h
    obtain ⟨sub, hsub, hl⟩ := List.mem_flatten.mp h
    obtain ⟨dv, hdvmem, hdv⟩ := List.mem_map.mp hsub
    by_cases hc : strContainsSub dv.1 ("Demographics of Countries".data) = true
    · rw [if_pos hc] at hdv
      rw [← hdv] at hl
      obtain ⟨a, hmem, ha⟩ := List.mem_filterMap.mp hl
      by_cases hp : (demoPath.isPrefixOf a.href && !strContainsSub a.href worldSeg) = true
      · rw [if_pos hp] at ha
        refine ⟨a, ?_, (by simp only [Bool.and_eq_true] at hp; exact hp.1), ?_⟩
        · unfold docAnchors
          refine List.mem_append_left _ (List.mem_append_right _ ?_)
          exact List.mem_flatten.mpr ⟨dv.2, List.mem_map_of_mem Prod.snd hdvmem, hmem⟩
        · rw [← Option.some.inj ha]
      · rw [if_neg hp] at ha; cases ha
    · rw [if_neg hc] at hdv
      rw [← hdv] at hl
      cases hl
  · unfold cands3 at h
    obtain ⟨a, hmem, ha⟩ := List.mem_filterMap.mp h
    unfold cand3fn at ha
    by_cases hp : (demoPath.isPrefixOf a.href && !strContainsSub a.href worldSeg
        && countrySlugHref a.href) = true
    · rw [if_pos hp] at ha
      refine ⟨a, ?_, (by simp only [Bool.and_eq_true] at hp; exact hp.1.1), ?_⟩
      · unfold docAnchors
        exact List.mem_append_right _ hmem
      · rw [← Option.some.inj ha]
    · rw [if_neg hp] at ha; cases ha

/-- The three strategies are tried in order, each only when the previous
ones produced zero links (the `seen` set is empty whenever `links` is, since
both grow in lockstep). -/
theorem extract_country_links_cases (doc : IndexDoc) :
    extract_country_links doc =
      if links1 doc = [] then (if links2 doc = [] then links3 doc else links2 doc)
      else links1 doc := by
  have e1 := links1_eq_firstSeen doc
  have e2 := links2_eq_firstSeen doc
  have e3 := links3_eq_firstSeen doc
  have l1 : links1 doc = firstSeenBy (cands1 doc) [] := by unfold links1; rw [e1]
  have l2 : links2 doc = firstSeenBy (cands2 doc) [] := by unfold links2; rw [e2]
  have l3 : links3 doc = firstSeenBy (cands3 doc) [] := by unfold links3; rw [e3]
  simp only [extract_country_links]
  rw [e1]
  by_cases h1 : firstSeenBy (cands1 doc) [] = []
  · by_cases h2 : firstSeenBy (cands2 doc) [] = []
    · simp [h1, h2, e2, e3, l1, l2, l3]
    · simp [h1, h2, e2, l1, l2]
  · simp [h1, l1]

/-- The resolver's output is the output of one of the three strategies. -/
theorem extract_is_some_strategy (doc : IndexDoc) :
    extract_country_links doc = links1 doc ∨
    extract_country_links doc = links2 doc ∨
    extract_country_links doc = links3 doc := by
  rw [extract_country_links_cases doc]
  by_cases h1 : links1 doc = []
  · by_cases h2 : links2 doc = []
    · simp [h1, h2]
    · simp [h1, h2]
  · simp [h1]

/-- C3 (as stated) is false on the code: `urljoin` resolves dot segments,
so a section-list anchor with href `"/demographics/../x"` — which passes
the `startswith("/demographics/")` filter — yields the URL
`BASE_URL ++ "/x"`, which does not start with the country-page path
prefix. -/
theorem claim3_counterexample : ¬ claim3Stmt := by
  intro h
  have h2 := (h doc3cex).2.1
    (("X".data), urljoin BASE_URL ("/demographics/../x".data)) (by decide)
  exact absurd h2 (by decide)

/-- C3 amended: the resolver's links have pairwise-distinct absolute URLs;
every URL extends the base URL followed by a slash and is the `urljoin` of
some document anchor's href passing the `startswith("/demographics/")`
filter; an href whose path is unchanged by dot-segment normalization joins
to a URL extending the full country-page prefix; links appear in
first-seen document order (each strategy's output is the first-seen
deduplication of its candidate anchors in document order); and each
fallback strategy is used only when the previous ones produced zero
links. -/
theorem claim3_resolver_invariants (doc : IndexDoc) :
    ((extract_country_links doc).map Prod.snd).Nodup ∧
    (∀ l ∈ extract_country_links doc, (BASE_URL ++ ['/']) <+: l.2) ∧
    (∀ l ∈ extract_country_links doc, ∃ a : Anchor, a ∈ docAnchors doc ∧
      demoPath.isPrefixOf a.href = true ∧ l.2 = urljoin BASE_URL a.href) ∧
    (∀ rel, demoPath.isPrefixOf rel = true → urlNormStable rel = true →
      START_URL <+: urljoin BASE_URL rel) ∧
    links1 doc = firstSeenBy (cands1 doc) [] ∧
    links2 doc = firstSeenBy (cands2 doc) [] ∧
    links3 doc = firstSeenBy (cands3 doc) [] ∧
    (links1 doc ≠ [] → extract_country_links doc = links1 doc) ∧
    (links1 doc = [] → links2 doc ≠ [] → extract_country_links doc = links2 doc) ∧
    (links1 doc = [] → links2 doc = [] → extract_country_links doc = links3 doc) := by
  have l1 : links1 doc = firstSeenBy (cands1 doc) [] := by
    unfold links1; rw [links1_eq_firstSeen doc]
  have l2 : links2 doc = firstSeenBy (cands2 doc) [] := by
    unfold links2; rw [links2_eq_firstSeen doc]
  have l3 : links3 doc = firstSeenBy (cands3 doc) [] := by
    unfold links3; rw [links3_eq_firstSeen doc]
  have hcases := extract_country_links_cases doc
  have hprov : ∀ l ∈ extract_country_links doc, ∃ a : Anchor, a ∈ docAnchors doc ∧
      demoPath.isPrefixOf a.href = true ∧ l.2 = urljoin BASE_URL a.href := by
    intro l hl
    rcases extract_is_some_strategy doc with h | h | h
    · rw [h, l1] at hl
      exact cands_url_provenance doc l (Or.inl (firstSeenBy_subset _ _ _ hl))
    · rw [h, l2] at hl
      exact cands_url_provenance doc l (Or.inr (Or.inl (firstSeenBy_subset _ _ _ hl)))
    · rw [h, l3] at hl
      exact cands_url_provenance doc l (Or.inr (Or.inr (firstSeenBy_subset _ _ _ hl)))
  refine ⟨?_, ?_, hprov, fun rel hp hs => urljoin_demo_prefix rel hp hs, l1, l2, l3, ?_, ?_, ?_⟩
  · rcases extract_is_some_strategy doc with h | h | h
    · rw [h, l1]; exact (firstSeenBy_nodup (cands1 doc) []).1
    · rw [h, l2]; exact (firstSeenBy_nodup (cands2 doc) []).1
    · rw [h, l3]; exact (firstSeenBy_nodup (cands3 doc) []).1
  · intro l hl
    obtain ⟨a, _, hp, hurl⟩ := hprov l hl
    have hne : a.href ≠ [] := by
      intro hnil
      rw [hnil] at hp
      exact absurd hp (by decide)
    obtain ⟨u, hu⟩ := urljoin_base_slash BASE_URL a.href hne
    rw [hurl, hu]
    exact ⟨u, by simp⟩
  · intro h1
    rw [hcases, if_neg h1]
  · intro h1 h2
    rw [hcases, if_pos h1, if_neg h2]
  · intro h1 h2
    rw [hcases, if_pos h1, if_pos h2]

/-- Witness for C3 at a concrete document with a duplicate anchor: the
duplicate URL is kept once. -/
theorem claim3_witness :
    ((extract_country_links doc3wit).map Prod.snd).Nodup :=
  (claim3_resolver_invariants doc3wit).1

/-- A candidate whose URL was not seen before and is not produced by any
earlier candidate survives first-seen deduplication. -/
theorem firstSeenBy_mem_of_first :
    ∀ (xs ys : List (Str × Str)) (c : Str × Str) (s : List Str),
      c.2 ∉ s → (∀ x ∈ xs, x.2 ≠ c.2) → c ∈ firstSeenBy (xs ++ c :: ys) s := by
  intro xs
  induction xs with
  | nil =>
    intro ys c s hs _
    rw [List.nil_append, firstSeenBy, if_neg hs]
    exact List.mem_cons_self c _
  | cons x rest ih =>
    intro ys c s hs hx
    rw [List.cons_append, firstSeenBy]
    by_cases hxs : x.2 ∈ s
    · rw [if_pos hxs]
      exact ih ys c s hs (fun y hy => hx y (List.mem_cons_of_mem x hy))
    · rw [if_neg hxs]
      refine List.mem_cons_of_mem x
        (ih ys c _ ?_ (fun y hy => hx y (List.mem_cons_of_mem x hy)))
      intro hmem
      rcases List.mem_append.mp hmem with hm | hm
      · exact hs hm
      · have : c.2 = x.2 := by simpa using hm
        exact hx x (List.mem_cons_self x rest) this.symm

-- ---------------------------------------------------------------------------
-- Theorems: derived display name (claim C6)
-- ---------------------------------------------------------------------------

/-- C6 (as stated) is false on the code: deduplication is by URL, so when an
earlier anchor with the same slug URL but non-empty text precedes the
empty-text anchor, the resolver keeps the earlier anchor's text as the name
and the derived display name never appears. -/
theorem claim6_counterexample : ¬ claim6Stmt := by
  intro h
  exact absurd (h doc6cex (by decide) (by decide) (by decide)) (by decide)

/-- C6 amended: when strategies 1 and 2 yield no links and the document
contains an empty-text anchor for the scenario slug such that no earlier
anchor joins to the same absolute URL, strategy 3 includes the link with the
derived title-cased display name. -/
theorem claim6_derived_name (doc : IndexDoc) (pre post : List Anchor)
    (h1 : links1 doc = []) (h2 : links2 doc = [])
    (hsplit : doc.anchors = pre ++ Anchor.mk stpHref [] :: post)
    (hpre : ∀ a ∈ pre, urljoin BASE_URL a.href ≠ stpUrl) :
    (stpName, stpUrl) ∈ extract_country_links doc := by
  rw [extract_country_links_cases doc, if_pos h1, if_pos h2]
  rw [show links3 doc = firstSeenBy (cands3 doc) [] from by
    unfold links3; rw [links3_eq_firstSeen doc]]
  unfold cands3
  rw [hsplit, List.filterMap_append, List.filterMap_cons]
  rw [show cand3fn (Anchor.mk stpHref []) = some (stpName, stpUrl) from by decide]
  refine firstSeenBy_mem_of_first _ _ _ _ (by simp) ?_
  intro x hx
  obtain ⟨a, ha, hax⟩ := List.mem_filterMap.mp hx
  unfold cand3fn at hax
  by_cases hcnd : (demoPath.isPrefixOf a.href && !strContainsSub a.href worldSeg
      && countrySlugHref a.href) = true
  · rw [if_pos hcnd] at hax
    injection hax with hax
    rw [← hax]
    exact hpre a ha
  · rw [if_neg hcnd] at hax
    cases hax

/-- Witness for the amended C6: a different-slug anchor precedes the
empty-text scenario anchor, and the derived-name link is included. -/
theorem claim6_witness : (stpName, stpUrl) ∈ extract_country_links doc6wit :=
  claim6_derived_name doc6wit
    [⟨"/demographics/albania-demographics/".data, "Albania".data⟩] []
    (by decide) (by decide) rfl (by decide)

-- ---------------------------------------------------------------------------
-- Stability of the urban fallback matcher under arbitrary page suffixes
-- ---------------------------------------------------------------------------

/-- `takeWhile` of an append stops inside the left part when some left
element fails the predicate. -/
theorem takeWhile_append_not_all (f : Char → Bool) :
    ∀ (xs ys : List Char), xs.all f = false →
      (xs ++ ys).takeWhile f = xs.takeWhile f := by
  intro xs
  induction xs with
  | nil => intro ys h; simp at h
  | cons c rest ih =>
    intro ys h
    rw [List.cons_append, List.takeWhile_cons, List.takeWhile_cons]
    by_cases hc : f c = true
    · have h2 : rest.all f = false := by
        rw [List.all_cons, hc] at h
        simpa using h
      rw [if_pos hc, if_pos hc, ih ys h2]
    · rw [if_neg hc, if_neg hc]

/-- Group 1 of the urban fallback cannot start on a non-`[\d.]` character. -/
theorem urbPart3_head_not (c : Char) (t : Str) (h : isDigitDot c = false) :
    urbPart3 (c :: t) = none := by
  unfold urbPart3
  rw [List.takeWhile_cons, if_neg (by simp [h])]
  rfl

/-- The lazy scan before group 1 steps over characters that can start
neither the group nor end the line. -/
theorem urbPart2_skip :
    ∀ (xs s : Str), (∀ c ∈ xs, isDigitDot c = false ∧ c ≠ '\n') →
      urbPart2 (xs ++ s) = urbPart2 s := by
  intro xs
  induction xs with
  | nil => intro s _; rfl
  | cons c rest ih =>
    intro s h
    obtain ⟨h1, h2⟩ := h c (List.mem_cons_self c rest)
    rw [List.cons_append, urbPart2, urbPart3_head_not c _ h1]
    simp only [if_neg h2]
    exact ih s (fun c2 hc2 => h c2 (List.mem_cons_of_mem c hc2))

/-- The lazy scan before the parenthesis steps over characters that are
neither `(` nor a newline. -/
theorem urbPart4_skip :
    ∀ (xs s : Str), (∀ c ∈ xs, c ≠ '(' ∧ c ≠ '\n') →
      urbPart4 (xs ++ s) = urbPart4 s := by
  intro xs
  induction xs with
  | nil => intro s _; rfl
  | cons c rest ih =>
    intro s h
    obtain ⟨h1, h2⟩ := h c (List.mem_cons_self c rest)
    rw [List.cons_append, urbPart4]
    simp only [if_neg h1, if_neg h2]
    exact ih s (fun c2 hc2 => h c2 (List.mem_cons_of_mem c hc2))

/-- The urban fallback pattern anchored at the scenario sentence matches
with groups `54.3` and `1,234,567 `, whatever text follows the sentence. -/
theorem urbAnchored_sent (post : Str) :
    urbAnchored (sentC ++ post) = some ("54.3".data, "1,234,567 ".data) := by
  have h1 : ciHasPrefix currentlyLit (sentC ++ post) = true := by
    unfold ciHasPrefix
    rw [show currentlyLit.length = 9 from rfl,
      List.take_append_of_le_length (by decide)]
    decide
  have h2 : (sentC ++ post).drop currentlyLit.length = sentTailA ++ post := by
    rw [show currentlyLit.length = 9 from rfl,
      List.drop_append_of_le_length (by decide),
      show sentC.drop 9 = sentTailA from by decide]
  unfold urbAnchored
  rw [if_pos h1, h2]
  rw [show sentTailA = (", ".data) ++ sentTailB from by decide, List.append_assoc,
    urbPart2_skip (", ".data) _ (by decide)]
  have h5 : urbPart5 (sentTailD ++ post) = some ("1,234,567 ".data) := by
    unfold urbPart5
    rw [takeWhile_append_not_all isDigitCommaSpace sentTailD post (by decide),
      show (sentTailD.takeWhile isDigitCommaSpace).length = 9 + 1 from by decide]
    rw [urbPart5Try]
    rw [if_pos ?hcond]
    case hcond =>
      rw [List.drop_append_of_le_length (by decide),
        show sentTailD.drop (9 + 1) = sentTailE from by decide]
      unfold spacesThenLitCI
      rw [takeWhile_append_not_all isPySpace sentTailE post (by decide),
        show (sentTailE.takeWhile isPySpace).length = 0 from by decide]
      rw [show List.range (0 + 1) = [0] from by decide]
      simp only [List.any_cons, List.any_nil, Bool.or_false]
      rw [List.drop_zero]
      unfold ciHasPrefix
      rw [show ("people".data : Str).length = 6 from rfl,
        List.take_append_of_le_length (by decide)]
      decide
    rw [List.take_append_of_le_length (by decide),
      show sentTailD.take (9 + 1) = "1,234,567 ".data from by decide]
  have h4 : urbPart4 (sentTailC ++ post) = some ("1,234,567 ".data) := by
    rw [show sentTailC = sentSkipC ++ '(' :: sentTailD from by decide,
      List.append_assoc, urbPart4_skip sentSkipC _ (by decide), List.cons_append,
      urbPart4]
    simp [h5]
  have h3 : urbPart3 (sentTailB ++ post) = some ("54.3".data, "1,234,567 ".data) := by
    unfold urbPart3
    rw [takeWhile_append_not_all isDigitDot sentTailB post (by decide),
      show (sentTailB.takeWhile isDigitDot).length = 3 + 1 from by decide]
    rw [urbPart3Try,
      List.drop_append_of_le_length (by decide),
      show sentTailB.drop (3 + 1) = '%' :: sentTailC from by decide, List.cons_append]
    simp only [h4]
    rw [List.take_append_of_le_length (by decide),
      show sentTailB.take (3 + 1) = "54.3".data from by decide]
  have hB : sentTailB ++ post = '5' :: (sentTailBt ++ post) := by
    rw [show sentTailB = '5' :: sentTailBt from by decide, List.cons_append]
  rw [hB, urbPart2, ← hB, h3]

/-- The leftmost search skips a prefix on which no match of the pattern
begins. -/
theorem urbSearch_skip :
    ∀ (pre rest : Str),
      (∀ i, i < pre.length → urbAnchored ((pre ++ rest).drop i) = none) →
      urbSearch (pre ++ rest) = urbSearch rest := by
  intro pre
  induction pre with
  | nil => intro rest _; rfl
  | cons c pre2 ih =>
    intro rest h
    have h0 := h 0 (by simp)
    rw [List.drop_zero] at h0
    rw [List.cons_append] at h0 ⊢
    rw [urbSearch, h0]
    exact ih rest (fun i hi => by
      have := h (i + 1) (by simpa using Nat.succ_lt_succ hi)
      rwa [List.cons_append, List.drop_succ_cons] at this)

/-- The leftmost search on any page text made of a matchless prefix, the
scenario sentence, and an arbitrary suffix yields the sentence's groups. -/
theorem urbSearch_sent (post : Str) :
    urbSearch (sentC ++ post) = some ("54.3".data, "1,234,567 ".data) := by
  have hcons : sentC ++ post = 'C' :: (sentCt ++ post) := by
    rw [show sentC = 'C' :: sentCt from by decide, List.cons_append]
  rw [hcons, urbSearch, ← hcons, urbAnchored_sent]

-- ---------------------------------------------------------------------------
-- Theorems: urban fallback extraction (claim C4)
-- ---------------------------------------------------------------------------

/-- C4 (as stated) is false on the code: `re.search` takes the leftmost
match, so a page whose text contains an earlier line matching the fallback
pattern yields that line's values (9.9 and 5), not the scenario sentence's
54.3 and 1234567, even though the scenario sentence is present on its own
line. -/
theorem claim4_counterexample : ¬ claim4Stmt := by
  intro h
  have h2 := h ("X".data) page4cex (Or.inl rfl)
    ⟨("Currently, 9.9% of the population is urban (5 people in 2020)".data) ++ ['\n'],
      [], by simp [page4cex]⟩
  exact absurd h2.1 (by decide)

/-- C4 amended: on every page without the structured urban heading or
paragraph whose page text is a prefix with no match of the fallback pattern,
followed by the scenario sentence, followed by anything, extraction yields
percent `54.3` and absolute `1234567` (separators stripped). -/
theorem claim4_urban_fallback (name : Str) (page : CountryPage) (pre post : Str)
    (hurb : page.urban = none ∨ page.urban = some none)
    (htext : page.pageText = pre ++ sentC ++ post)
    (hfirst : ∀ i, i < pre.length → urbAnchored ((pre ++ (sentC ++ post)).drop i) = none) :
    dictGet? (extract_country_data name page) keyUpPct = some (.vStr ("54.3".data)) ∧
    dictGet? (extract_country_data name page) keyUpAbs = some (.vStr ("1234567".data)) := by
  have hne1 : keyUpAbs ≠ keyUpPct := by decide
  have hsearch : urbSearch page.pageText = some ("54.3".data, "1,234,567 ".data) := by
    rw [htext, List.append_assoc, urbSearch_skip pre (sentC ++ post) hfirst,
      urbSearch_sent]
  obtain ⟨hb1, hb2⟩ := leFold_no_urban name page.leBlocks
  have hstr : urbanStructured
      (page.leBlocks.foldl leBlockStep [(keyCountry, .vStr name)]) page.urban =
      page.leBlocks.foldl leBlockStep [(keyCountry, .vStr name)] := by
    rcases hurb with h | h <;> rw [h] <;> rfl
  have hfb : urbanFallback
      (urbanStructured
        (page.leBlocks.foldl leBlockStep [(keyCountry, .vStr name)]) page.urban)
      page.pageText =
      dictSet (dictSet
        (urbanStructured
          (page.leBlocks.foldl leBlockStep [(keyCountry, .vStr name)]) page.urban)
        keyUpPct (.vStr ("54.3".data)))
        keyUpAbs (.vStr (stripSpaceComma ("1,234,567 ".data))) := by
    unfold urbanFallback
    rw [hsearch, if_pos]
    rw [hstr]
    simp [dictHasKey, hb1]
  have hgp : dictGet? (urbanFallback
      (urbanStructured
        (page.leBlocks.foldl leBlockStep [(keyCountry, .vStr name)]) page.urban)
      page.pageText) keyUpPct = some (.vStr ("54.3".data)) := by
    rw [hfb, dictGet?_set_ne _ _ _ _ hne1, dictGet?_set_self]
  have hga : dictGet? (urbanFallback
      (urbanStructured
        (page.leBlocks.foldl leBlockStep [(keyCountry, .vStr name)]) page.urban)
      page.pageText) keyUpAbs = some (.vStr ("1234567".data)) := by
    rw [hfb, dictGet?_set_self,
      show stripSpaceComma ("1,234,567 ".data) = "1234567".data from by decide]
  constructor
  · unfold extract_country_data extractPre
    rw [foldSetdefault_of_hasKey _ _ _ (by
        simp only [dictHasKey]
        rw [densityFallback_get_ne _ _ _ (by decide),
          densityStructured_get_ne _ _ _ (by decide), hgp]
        rfl),
      densityFallback_get_ne _ _ _ (by decide),
      densityStructured_get_ne _ _ _ (by decide), hgp]
  · unfold extract_country_data extractPre
    rw [foldSetdefault_of_hasKey _ _ _ (by
        simp only [dictHasKey]
        rw [densityFallback_get_ne _ _ _ (by decide),
          densityStructured_get_ne _ _ _ (by decide), hga]
        rfl),
      densityFallback_get_ne _ _ _ (by decide),
      densityStructured_get_ne _ _ _ (by decide), hga]

/-- Witness for the amended C4: the sentence between unrelated lines. -/
theorem claim4_witness :
    dictGet? (extract_country_data ("Y".data) page4wit) keyUpPct =
      some (.vStr ("54.3".data)) ∧
    dictGet? (extract_country_data ("Y".data) page4wit) keyUpAbs =
      some (.vStr ("1234567".data)) :=
  claim4_urban_fallback ("Y".data) page4wit ("Intro.".data ++ ['\n'])
    ('\n' :: ("Tail.".data)) (Or.inl rfl) (by decide) (by decide)

end DemoCrawl
